import Mathlib

/-!
Shallow embedding of the cooperative thread scheduler of ZeroOS
(`crates/zeroos-scheduler-cooperative`): thread control blocks, the
scheduler table, the futex wait/wake operations, spawn/yield/exit, and
the trap-boundary glue (`update_frame` / `finish_trap`).

Machine integers (`usize`, `u64`) are modelled as `Nat`; signed values
(`isize`, `i32`) as `Int`; casts such as `as usize` reduce modulo `2^64`.
The thread table (`[Option<NonNull<ThreadControlBlock>>; MAX_THREADS]`)
is a 64-slot `List (Option ThreadControlBlock)`; heap pointers are
identified with their (stable, never reused) table slot index.
-/

namespace ZeroOS

def MAX_THREADS : Nat := 64

/-- Linux errno values used through the `libc` crate on riscv. -/
def EPERM : Int := 1

def EAGAIN : Int := 11

def EDEADLK : Int := 35

/-- The modulus `2 ^ 64` of `usize` / `u64` arithmetic. -/
def USIZE_MOD : Nat := 2 ^ 64

/-- Rust's `as usize` cast from a signed value. -/
def usizeOfInt (i : Int) : Nat := (i % (USIZE_MOD : Int)).toNat

inductive ThreadState where
  | Ready
  | Running
  | Blocked
  | Exited
deriving DecidableEq

/-- The riscv `TrapFrame` (`zeroos-arch-riscv/src/trap.rs`): all integer
general-purpose registers plus `mepc`, `mstatus`, `mcause`, `mtval`. -/
structure TrapFrame where
  ra : Nat
  sp : Nat
  gp : Nat
  tp : Nat
  t0 : Nat
  t1 : Nat
  t2 : Nat
  s0 : Nat
  s1 : Nat
  a0 : Nat
  a1 : Nat
  a2 : Nat
  a3 : Nat
  a4 : Nat
  a5 : Nat
  a6 : Nat
  a7 : Nat
  s2 : Nat
  s3 : Nat
  s4 : Nat
  s5 : Nat
  s6 : Nat
  s7 : Nat
  s8 : Nat
  s9 : Nat
  s10 : Nat
  s11 : Nat
  t3 : Nat
  t4 : Nat
  t5 : Nat
  t6 : Nat
  mepc : Nat
  mstatus : Nat
  mcause : Nat
  mtval : Nat
deriving DecidableEq

/-- Source `ArchContext::new()` for `TrapFrame`: the all-zero frame. -/
def TrapFrame.new : TrapFrame :=
  { ra := 0, sp := 0, gp := 0, tp := 0, t0 := 0, t1 := 0, t2 := 0, s0 := 0
    s1 := 0, a0 := 0, a1 := 0, a2 := 0, a3 := 0, a4 := 0, a5 := 0, a6 := 0
    a7 := 0, s2 := 0, s3 := 0, s4 := 0, s5 := 0, s6 := 0, s7 := 0, s8 := 0
    s9 := 0, s10 := 0, s11 := 0, t3 := 0, t4 := 0, t5 := 0, t6 := 0
    mepc := 0, mstatus := 0, mcause := 0, mtval := 0 }

/-- Source `ThreadContext` (`thread.rs`): the scheduler's reduced projection of a
frame.  On `TrapFrame`, `return_value` is register `a0`. -/
structure ThreadContext where
  sp : Nat
  tp : Nat
  ra : Nat
  gp : Nat
  retval : Nat
deriving DecidableEq

def ThreadContext.new : ThreadContext :=
  { sp := 0, tp := 0, ra := 0, gp := 0, retval := 0 }

/-- Source `sync_thread_ctx_from_frame` (`thread.rs`): overwrite all five context
fields from the frame. -/
def sync_thread_ctx_from_frame (frame : TrapFrame) : ThreadContext :=
  { sp := frame.sp, tp := frame.tp, ra := frame.ra, gp := frame.gp
    retval := frame.a0 }

/-- Source `apply_thread_ctx_to_frame` (`thread.rs`). -/
def apply_thread_ctx_to_frame (frame : TrapFrame) (ctx : ThreadContext) : TrapFrame :=
  { frame with sp := ctx.sp, tp := ctx.tp, ra := ctx.ra, gp := ctx.gp
               a0 := ctx.retval }

structure ThreadControlBlock where
  trap_frame : TrapFrame
  thread_ctx : ThreadContext
  tid : Nat
  state : ThreadState
  saved_pc : Nat
  futex_wait_addr : Nat
  clear_child_tid : Nat
deriving DecidableEq

/-- Source `ThreadControlBlock::new` (`thread.rs`). -/
def ThreadControlBlock.new (tid initial_sp tls initial_pc : Nat) : ThreadControlBlock :=
  let thread_ctx : ThreadContext := { ThreadContext.new with sp := initial_sp, tp := tls }
  let trap_frame : TrapFrame := apply_thread_ctx_to_frame TrapFrame.new thread_ctx
  { trap_frame := trap_frame
    thread_ctx := thread_ctx
    tid := tid
    state := ThreadState.Ready
    saved_pc := initial_pc
    futex_wait_addr := 0
    clear_child_tid := 0 }

structure Scheduler where
  threads : List (Option ThreadControlBlock)
  thread_count : Nat
  current_index : Nat
  next_tid : Nat
deriving DecidableEq

/-- Source `Scheduler::new()`. -/
def Scheduler.new : Scheduler :=
  { threads := List.replicate MAX_THREADS none
    thread_count := 0
    current_index := 0
    next_tid := 1 }

/-- Table read `self.threads[i]` (out-of-range reads never occur on reachable
states; they are mapped to `none`). -/
def Scheduler.getSlot (s : Scheduler) (i : Nat) : Option ThreadControlBlock :=
  s.threads.getD i none

/-- Mutation through the slot-`i` TCB pointer: `(*tcb.as_ptr()).… = …`. -/
def Scheduler.modifyTCB (s : Scheduler) (i : Nat) (f : ThreadControlBlock → ThreadControlBlock) : Scheduler :=
  { s with threads := s.threads.set i ((s.threads.getD i none).map f) }

/-- Source `Scheduler::current_thread`. -/
def Scheduler.current_thread (s : Scheduler) : Option ThreadControlBlock :=
  if s.current_index < s.thread_count then s.getSlot s.current_index else none

/-- Source `Scheduler::current_tid_or_1`. -/
def Scheduler.current_tid_or_1 (s : Scheduler) : Nat :=
  match s.current_thread with
  | some tcb => tcb.tid
  | none => 1

/-- The state of the TCB in slot `i`, if the slot is occupied. -/
def Scheduler.stateAt (s : Scheduler) (i : Nat) : Option ThreadState :=
  (s.getSlot i).map (fun t => t.state)

/-- Slot `i` holds a TCB in state `Ready`. -/
def Scheduler.isReadyAt (s : Scheduler) (i : Nat) : Bool :=
  match s.getSlot i with
  | some t => decide (t.state = ThreadState.Ready)
  | none => false

/-- Source `Scheduler::find_next_ready`: scan `start_from..thread_count`, then
`0..start_from`, for the first slot holding a `Ready` TCB. -/
def Scheduler.find_next_ready (s : Scheduler) (start_from : Nat) : Option Nat :=
  match (List.range' start_from (s.thread_count - start_from)).find? s.isReadyAt with
  | some i => some i
  | none => (List.range' 0 start_from).find? s.isReadyAt

/-- The write `(*tcb).thread_ctx.set_return_value(v)` on the current thread, when
there is one (`if let Some(tcb) = self.current_thread()`). -/
def Scheduler.setCurrentRetval (s : Scheduler) (v : Nat) : Scheduler :=
  match s.current_thread with
  | some _ =>
      s.modifyTCB s.current_index
        (fun t => { t with thread_ctx := { t.thread_ctx with retval := v } })
  | none => s

/-- Source `Scheduler::yield_now`. -/
def Scheduler.yield_now (s : Scheduler) : Scheduler :=
  let sA := s.setCurrentRetval 0
  if sA.thread_count = 0 then sA
  else
    let current_idx := sA.current_index
    let sB :=
      match sA.getSlot current_idx with
      | some t =>
          if t.state = ThreadState.Running then
            sA.modifyTCB current_idx (fun t => { t with state := ThreadState.Ready })
          else sA
      | none => sA
    match sB.find_next_ready ((current_idx + 1) % sB.thread_count) with
    | none =>
        match sB.getSlot current_idx with
        | some t =>
            if t.state = ThreadState.Ready then
              sB.modifyTCB current_idx (fun t => { t with state := ThreadState.Running })
            else sB
        | none => sB
    | some next_idx =>
        if next_idx = current_idx then
          match sB.getSlot current_idx with
          | some _ => sB.modifyTCB current_idx (fun t => { t with state := ThreadState.Running })
          | none => sB
        else
          match sB.getSlot next_idx with
          | some _ =>
              { sB.modifyTCB next_idx (fun t => { t with state := ThreadState.Running }) with
                current_index := next_idx }
          | none => sB

/-- Source `Scheduler::wait_on_addr`; `actual` models the volatile 32-bit read
`read_volatile(addr as *const i32)` performed by the source. -/
def Scheduler.wait_on_addr (s : Scheduler) (addr : Nat) (expected actual : Int) : Scheduler × Int :=
  if actual ≠ expected then
    (s.setCurrentRetval (usizeOfInt (-EAGAIN)), -EAGAIN)
  else if s.thread_count ≤ 1 then
    (s.setCurrentRetval (usizeOfInt (-EDEADLK)), -EDEADLK)
  else
    let sA := s.setCurrentRetval 0
    match sA.current_thread with
    | some _ =>
        let sB := sA.modifyTCB sA.current_index
          (fun t => { t with state := ThreadState.Blocked, futex_wait_addr := addr })
        (sB.yield_now, 0)
    | none => (sA, 0)

/-- The loop body of `Scheduler::wake_futex` (`for i in 0..thread_count`,
breaking once `woken >= max_count`). -/
def wake_futex_loop (threads : List (Option ThreadControlBlock))
    (thread_count futex_addr max_count i woken : Nat) :
    List (Option ThreadControlBlock) × Nat :=
  if i < thread_count then
    if woken ≥ max_count then (threads, woken)
    else
      match threads.getD i none with
      | some t =>
          if t.state = ThreadState.Blocked ∧ t.futex_wait_addr = futex_addr then
            wake_futex_loop
              (threads.set i (some { t with state := ThreadState.Ready, futex_wait_addr := 0 }))
              thread_count futex_addr max_count (i + 1) (woken + 1)
          else wake_futex_loop threads thread_count futex_addr max_count (i + 1) woken
      | none => wake_futex_loop threads thread_count futex_addr max_count (i + 1) woken
  else (threads, woken)
termination_by thread_count - i

/-- Source `Scheduler::wake_futex`. -/
def Scheduler.wake_futex (s : Scheduler) (futex_addr max_count : Nat) : Scheduler × Nat :=
  let r := wake_futex_loop s.threads s.thread_count futex_addr max_count 0 0
  ({ s with threads := r.1 }, r.2)

/-- Source `Scheduler::wake_on_addr`. -/
def Scheduler.wake_on_addr (s : Scheduler) (addr count : Nat) : Scheduler × Nat :=
  let r := s.wake_futex addr count
  (r.1.setCurrentRetval r.2, r.2)

/-- Source `Scheduler::spawn_thread`. -/
def Scheduler.spawn_thread (s : Scheduler) (parent_context : TrapFrame)
    (stack tls clear_child_tid_ptr mepc : Nat) : Scheduler × Int :=
  let sA :=
    if s.thread_count = 0 then
      let m0 := ThreadControlBlock.new 1 parent_context.sp parent_context.tp mepc
      let m1 := { m0 with trap_frame := parent_context }
      let m2 := { m1 with thread_ctx := sync_thread_ctx_from_frame m1.trap_frame }
      let m3 := { m2 with saved_pc := mepc, state := ThreadState.Running }
      { s with threads := s.threads.set 0 (some m3)
               thread_count := 1
               current_index := 0
               next_tid := 2 }
    else s
  let new_tid := sA.next_tid
  let sB := { sA with next_tid := sA.next_tid + 1 }
  let stack_base := stack &&& (USIZE_MOD - 16)
  let c0 := ThreadControlBlock.new new_tid stack_base tls mepc
  let c1 := { c0 with trap_frame := parent_context }
  let c2 := { c1 with thread_ctx := sync_thread_ctx_from_frame c1.trap_frame }
  let c3 := { c2 with thread_ctx :=
    { c2.thread_ctx with sp := stack_base, tp := tls, retval := 0 } }
  let c4 := { c3 with trap_frame := apply_thread_ctx_to_frame c3.trap_frame c3.thread_ctx }
  let c5 := { c4 with trap_frame := { c4.trap_frame with s0 := stack_base } }
  let c6 := { c5 with clear_child_tid := clear_child_tid_ptr }
  if sB.thread_count ≥ MAX_THREADS then (sB, -EPERM)
  else
    let sC := { sB with threads := sB.threads.set sB.thread_count (some c6)
                        thread_count := sB.thread_count + 1 }
    let sD := sC.setCurrentRetval new_tid
    (sD, (new_tid : Int))

/-- The payload `((exit_code as u64) << 1) | 1` written to `tohost`. -/
def encode_tohost (exit_code : Int) : Nat :=
  (usizeOfInt exit_code * 2 + 1) % USIZE_MOD

/-- Result of `exit_current_and_yield`: the scheduler, the `isize`
return, the value (if any) written to the `tohost` channel, and the
address (if any) zeroed for `clear_child_tid`. -/
structure ExitResult where
  sched : Scheduler
  ret : Int
  tohost : Option Nat
  cleared : Option Nat
deriving DecidableEq

/-- Source `Scheduler::exit_current_and_yield`. -/
def Scheduler.exit_current_and_yield (s : Scheduler) (exit_code : Int) : ExitResult :=
  match s.current_thread with
  | some cur =>
      let is_main_thread := cur.tid = 1
      let sA := s.modifyTCB s.current_index (fun t => { t with state := ThreadState.Exited })
      let clear := cur.clear_child_tid
      let wres :=
        if clear ≠ 0 then ((sA.wake_futex clear (USIZE_MOD - 1)).1, some clear)
        else (sA, (none : Option Nat))
      let sB := wres.1
      if is_main_thread then
        { sched := sB, ret := 0, tohost := some (encode_tohost exit_code), cleared := wres.2 }
      else
        match sB.find_next_ready ((sB.current_index + 1) % sB.thread_count) with
        | some next_idx =>
            match sB.getSlot next_idx with
            | some _ =>
                { sched :=
                    { sB.modifyTCB next_idx (fun t => { t with state := ThreadState.Running }) with
                      current_index := next_idx }
                  ret := 0, tohost := none, cleared := wres.2 }
            | none => { sched := sB, ret := 0, tohost := none, cleared := wres.2 }
        | none => { sched := sB, ret := 0, tohost := none, cleared := wres.2 }
  | none => { sched := s, ret := 0, tohost := some (encode_tohost exit_code), cleared := none }

/-- Pointer `Scheduler::current_thread()` as a stable identity: the slot index of
the returned TCB pointer (TCBs never move between slots, so pointer
equality of `current_thread()` results coincides with slot equality). -/
def Scheduler.current_thread_index (s : Scheduler) : Option Nat :=
  if s.current_index < s.thread_count then
    (s.getSlot s.current_index).map (fun _ => s.current_index)
  else none

/-- Source `Scheduler::update_current_from_frame` (`trap_glue.rs`), for a
non-null `frame_ptr` whose pointee is `frame`. -/
def Scheduler.update_current_from_frame (s : Scheduler) (frame : TrapFrame) (mepc : Nat) : Scheduler :=
  match s.current_thread with
  | some _ =>
      s.modifyTCB s.current_index (fun t =>
        let t1 := { t with trap_frame := frame }
        let t2 := { t1 with thread_ctx := sync_thread_ctx_from_frame t1.trap_frame }
        { t2 with saved_pc := mepc })
  | none => s

/-- Source `update_frame` (`trap_glue.rs`): `last` is the prior value of the
`LAST_TRAP_THREAD` global; the second component is its new value. -/
def update_frame (s : Scheduler) (last : Option Nat) (frame : TrapFrame) (mepc : Nat) :
    Scheduler × Option Nat :=
  if s.thread_count ≠ 0 then
    let sA := s.update_current_from_frame frame mepc
    (sA, sA.current_thread_index)
  else (s, last)

/-- Result of `finish_trap`: scheduler, live frame, live `mepc` cell, and
the (unconditionally cleared) `LAST_TRAP_THREAD` global. -/
structure FinishTrapResult where
  sched : Scheduler
  frame_out : TrapFrame
  mepc_out : Nat
  last_out : Option Nat
deriving DecidableEq

/-- Source `Scheduler::finish_trap` (`trap_glue.rs`), for non-null `frame_ptr`
and `mepc_ptr`, with pointees `frame` and `mepc_cell`; `entry` is the
`LAST_TRAP_THREAD` recorded by `update_frame`. -/
def Scheduler.finish_trap (s : Scheduler) (entry : Option Nat) (frame : TrapFrame)
    (mepc_cell : Nat) : FinishTrapResult :=
  let current := s.current_thread_index
  let sA :=
    match entry with
    | some i =>
        s.modifyTCB i (fun t =>
          let t1 := { t with trap_frame := frame }
          let t2 := { t1 with thread_ctx := sync_thread_ctx_from_frame t1.trap_frame }
          { t2 with saved_pc := mepc_cell })
    | none => s
  if entry.isSome ∧ current ≠ entry then
    match current with
    | some j =>
        match sA.getSlot j with
        | some t =>
            let t1 := { t with trap_frame := apply_thread_ctx_to_frame t.trap_frame t.thread_ctx }
            { sched := { sA with threads := sA.threads.set j (some t1) }
              frame_out := t1.trap_frame
              mepc_out := t1.saved_pc
              last_out := none }
        | none => { sched := sA, frame_out := frame, mepc_out := mepc_cell, last_out := none }
    | none => { sched := sA, frame_out := frame, mepc_out := mepc_cell, last_out := none }
  else { sched := sA, frame_out := frame, mepc_out := mepc_cell, last_out := none }

/-- One scheduler operation, invoked from a trap outside the glue layer:
the transition relation generated by the five public scheduler calls. -/
inductive Step : Scheduler → Scheduler → Prop
  | spawn (s : Scheduler) (f : TrapFrame) (stack tls ccp mepc : Nat) :
      Step s (s.spawn_thread f stack tls ccp mepc).1
  | yield (s : Scheduler) : Step s s.yield_now
  | wait (s : Scheduler) (addr : Nat) (expected actual : Int) :
      Step s (s.wait_on_addr addr expected actual).1
  | wake (s : Scheduler) (addr count : Nat) : Step s (s.wake_on_addr addr count).1
  | exit (s : Scheduler) (code : Int) : Step s (s.exit_current_and_yield code).sched

/-- States reachable from the fresh scheduler by scheduler calls. -/
def Reachable (s : Scheduler) : Prop :=
  Relation.ReflTransGen Step Scheduler.new s

/-- The thread table is (as in the source) a 64-slot array. -/
def Scheduler.WF (s : Scheduler) : Prop := s.threads.length = MAX_THREADS

/-- Number of TCBs in state `Running`. -/
def Scheduler.runningCount (s : Scheduler) : Nat :=
  (List.range MAX_THREADS).countP (fun i => decide (s.stateAt i = some ThreadState.Running))

/-- Relation holding after `spawn_thread` is iterated `n` times from `s` with arbitrary arguments
at each call. -/
inductive Spawns : Nat → Scheduler → Prop
  | zero : Spawns 0 Scheduler.new
  | succ {n : Nat} {s : Scheduler} (f : TrapFrame) (stack tls ccp mepc : Nat) :
      Spawns n s → Spawns (n + 1) (s.spawn_thread f stack tls ccp mepc).1

/-- Iterate `yield_now` `n` times. -/
def yieldIter : Nat → Scheduler → Scheduler
  | 0, s => s
  | n + 1, s => yieldIter n s.yield_now

section Lemmas

theorem modifyTCB_thread_count (s : Scheduler) (i : Nat) (f : ThreadControlBlock → ThreadControlBlock) :
    (s.modifyTCB i f).thread_count = s.thread_count := rfl

theorem modifyTCB_current_index (s : Scheduler) (i : Nat) (f : ThreadControlBlock → ThreadControlBlock) :
    (s.modifyTCB i f).current_index = s.current_index := rfl

theorem modifyTCB_next_tid (s : Scheduler) (i : Nat) (f : ThreadControlBlock → ThreadControlBlock) :
    (s.modifyTCB i f).next_tid = s.next_tid := rfl

theorem getSlot_modifyTCB (s : Scheduler) (i : Nat) (f : ThreadControlBlock → ThreadControlBlock)
    (j : Nat) :
    (s.modifyTCB i f).getSlot j = if j = i then (s.getSlot i).map f else s.getSlot j := by
  unfold Scheduler.modifyTCB Scheduler.getSlot
  simp only [List.getD_eq_getElem?_getD, List.getElem?_set]
  by_cases hj : j = i
  · subst hj
    by_cases hl : j < s.threads.length
    · simp [hl, List.getElem?_eq_getElem hl]
    · simp [hl, List.getElem?_eq_none (le_of_not_lt hl)]
  · simp [hj, Ne.symm hj]

theorem stateAt_modifyTCB (s : Scheduler) (i : Nat) (f : ThreadControlBlock → ThreadControlBlock)
    (j : Nat) :
    (s.modifyTCB i f).stateAt j =
      if j = i then (s.getSlot i).map (fun t => (f t).state) else s.stateAt j := by
  unfold Scheduler.stateAt
  rw [getSlot_modifyTCB]
  by_cases hj : j = i
  · rw [if_pos hj, if_pos hj, Option.map_map]
    rfl
  · rw [if_neg hj, if_neg hj]

theorem setCurrentRetval_thread_count (s : Scheduler) (v : Nat) :
    (s.setCurrentRetval v).thread_count = s.thread_count := by
  unfold Scheduler.setCurrentRetval
  cases s.current_thread <;> rfl

theorem setCurrentRetval_current_index (s : Scheduler) (v : Nat) :
    (s.setCurrentRetval v).current_index = s.current_index := by
  unfold Scheduler.setCurrentRetval
  cases s.current_thread <;> rfl

theorem setCurrentRetval_next_tid (s : Scheduler) (v : Nat) :
    (s.setCurrentRetval v).next_tid = s.next_tid := by
  unfold Scheduler.setCurrentRetval
  cases s.current_thread <;> rfl

theorem setCurrentRetval_threads_length (s : Scheduler) (v : Nat) :
    (s.setCurrentRetval v).threads.length = s.threads.length := by
  unfold Scheduler.setCurrentRetval
  cases s.current_thread <;> simp [Scheduler.modifyTCB]

/-- Note `setCurrentRetval` changes only the `retval` of the current TCB's
context: the state/futex projection of every slot is unchanged. -/
theorem statefutex_setCurrentRetval (s : Scheduler) (v : Nat) (i : Nat) :
    ((s.setCurrentRetval v).getSlot i).map (fun t => (t.state, t.futex_wait_addr)) =
      (s.getSlot i).map (fun t => (t.state, t.futex_wait_addr)) := by
  unfold Scheduler.setCurrentRetval
  cases s.current_thread with
  | none => rfl
  | some t =>
      rw [getSlot_modifyTCB]
      by_cases hi : i = s.current_index
      · subst hi
        rw [if_pos rfl, Option.map_map]
        cases s.getSlot s.current_index <;> rfl
      · rw [if_neg hi]

theorem stateAt_setCurrentRetval (s : Scheduler) (v : Nat) (i : Nat) :
    (s.setCurrentRetval v).stateAt i = s.stateAt i := by
  have h := statefutex_setCurrentRetval s v i
  unfold Scheduler.stateAt
  cases hA : (s.setCurrentRetval v).getSlot i <;> cases hB : s.getSlot i <;>
    rw [hA, hB] at h <;> simp_all

end Lemmas

section ClaimC8

/-- Claim **C8** (futex precondition race check): if the 32-bit value stored at
`addr` (modelled by `actual`) differs from `expected`, then
`wait_on_addr(addr, expected)` returns `-EAGAIN`, and no TCB's state or
`futex_wait_addr` changes — in particular the calling thread is not
marked `Blocked` and its wait address is not set. -/
theorem C8_wait_race_check (s : Scheduler) (addr : Nat) (expected actual : Int)
    (hne : actual ≠ expected) :
    (s.wait_on_addr addr expected actual).2 = -EAGAIN ∧
    ∀ i, ((s.wait_on_addr addr expected actual).1.getSlot i).map
        (fun t => (t.state, t.futex_wait_addr)) =
      (s.getSlot i).map (fun t => (t.state, t.futex_wait_addr)) := by
  unfold Scheduler.wait_on_addr
  rw [if_pos hne]
  exact ⟨rfl, fun i => statefutex_setCurrentRetval s _ i⟩

/-- Witness for C8 on a concrete two-thread scheduler. -/
theorem C8_wait_race_check_witness :
    ((Scheduler.new.spawn_thread TrapFrame.new 0 0 0 0).1.wait_on_addr 500 3 4).2 = -EAGAIN ∧
    ∀ i, (((Scheduler.new.spawn_thread TrapFrame.new 0 0 0 0).1.wait_on_addr 500 3 4).1.getSlot
        i).map (fun t => (t.state, t.futex_wait_addr)) =
      ((Scheduler.new.spawn_thread TrapFrame.new 0 0 0 0).1.getSlot i).map
        (fun t => (t.state, t.futex_wait_addr)) :=
  C8_wait_race_check (Scheduler.new.spawn_thread TrapFrame.new 0 0 0 0).1 500 3 4 (by decide)

end ClaimC8

section ClaimC3

/-- A scheduler holding a single (main, running) thread. -/
def oneThreadSched : Scheduler :=
  { threads := (List.replicate MAX_THREADS (none : Option ThreadControlBlock)).set 0
      (some { ThreadControlBlock.new 1 0 0 0 with state := ThreadState.Running })
    thread_count := 1
    current_index := 0
    next_tid := 2 }

/-- Claim **C3, counterexample**: on a single-thread scheduler whose stored
value (1) differs from `expected` (0), `wait_on_addr` fails with
`-EAGAIN`, not with the claimed `-EDEADLK`. -/
theorem C3_counterexample :
    oneThreadSched.thread_count ≤ 1 ∧
    (oneThreadSched.wait_on_addr 100 0 1).2 ≠ -EDEADLK ∧
    (oneThreadSched.wait_on_addr 100 0 1).2 = -EAGAIN := by decide

/-- Claim **C3, amended**: `wait_on_addr` on a scheduler holding at most one
thread always fails — with `-EDEADLK` when the stored value equals
`expected`, with `-EAGAIN` otherwise — and never changes any TCB's state
or wait address (in particular the caller is never marked `Blocked`). -/
theorem C3_deadlock_rejection (s : Scheduler) (addr : Nat) (expected actual : Int)
    (hone : s.thread_count ≤ 1) :
    ((s.wait_on_addr addr expected actual).2 = -EDEADLK ∨
      (s.wait_on_addr addr expected actual).2 = -EAGAIN) ∧
    (actual = expected → (s.wait_on_addr addr expected actual).2 = -EDEADLK) ∧
    ∀ i, ((s.wait_on_addr addr expected actual).1.getSlot i).map
        (fun t => (t.state, t.futex_wait_addr)) =
      (s.getSlot i).map (fun t => (t.state, t.futex_wait_addr)) := by
  unfold Scheduler.wait_on_addr
  by_cases h : actual ≠ expected
  · rw [if_pos h]
    exact ⟨Or.inr rfl, fun he => absurd he h, fun i => statefutex_setCurrentRetval s _ i⟩
  · rw [if_neg h, if_pos hone]
    exact ⟨Or.inl rfl, fun _ => rfl, fun i => statefutex_setCurrentRetval s _ i⟩

/-- Witness for the amended C3 on the single-thread scheduler with a
matching stored value. -/
theorem C3_deadlock_rejection_witness :
    oneThreadSched.thread_count ≤ 1 ∧
    (0 : Int) = 0 ∧
    (oneThreadSched.wait_on_addr 100 0 0).2 = -EDEADLK :=
  ⟨by decide, rfl,
    (C3_deadlock_rejection oneThreadSched 100 0 0 (by decide)).2.1 rfl⟩

end ClaimC3

section ClaimC10

/-- On a full table, `spawn_thread` only bumps `next_tid` and reports
`-EPERM`. -/
theorem spawn_thread_full (s : Scheduler) (f : TrapFrame) (stack tls ccp mepc : Nat)
    (h : 64 ≤ s.thread_count) (h0 : s.thread_count ≠ 0) :
    s.spawn_thread f stack tls ccp mepc = ({ s with next_tid := s.next_tid + 1 }, -EPERM) := by
  unfold Scheduler.spawn_thread
  rw [if_neg h0]
  dsimp only
  split
  next hge => rfl
  next hlt => exact absurd (by simpa [MAX_THREADS] using h) hlt

/-- Claim **C10** (spawn failure is not atomic in the Tid counter): on a full
table (`thread_count = MAX_THREADS`), `spawn_thread` returns `-EPERM`
and leaves the thread table (every slot and TCB, hence also the parent's
pending return value), `thread_count` and `current_index` unchanged, yet
`next_tid` has been incremented: the Tid is consumed with no thread
created. -/
theorem C10_spawn_full_table (s : Scheduler) (f : TrapFrame) (stack tls ccp mepc : Nat)
    (hfull : s.thread_count = MAX_THREADS) :
    (s.spawn_thread f stack tls ccp mepc).2 = -EPERM ∧
    (s.spawn_thread f stack tls ccp mepc).1.threads = s.threads ∧
    (s.spawn_thread f stack tls ccp mepc).1.thread_count = s.thread_count ∧
    (s.spawn_thread f stack tls ccp mepc).1.current_index = s.current_index ∧
    (s.spawn_thread f stack tls ccp mepc).1.next_tid = s.next_tid + 1 := by
  have h := spawn_thread_full s f stack tls ccp mepc
    (by simp [hfull, MAX_THREADS]) (by simp [hfull, MAX_THREADS])
  rw [h]
  exact ⟨rfl, rfl, rfl, rfl, rfl⟩

/-- A scheduler whose table is full. -/
def fullSched : Scheduler :=
  { threads := List.replicate MAX_THREADS (some (ThreadControlBlock.new 1 0 0 0))
    thread_count := MAX_THREADS
    current_index := 0
    next_tid := 65 }

/-- Witness for C10 on a concrete full scheduler. -/
theorem C10_spawn_full_table_witness :
    fullSched.thread_count = MAX_THREADS ∧
    ((fullSched.spawn_thread TrapFrame.new 0 0 0 0).2 = -EPERM ∧
      (fullSched.spawn_thread TrapFrame.new 0 0 0 0).1.threads = fullSched.threads ∧
      (fullSched.spawn_thread TrapFrame.new 0 0 0 0).1.thread_count = fullSched.thread_count ∧
      (fullSched.spawn_thread TrapFrame.new 0 0 0 0).1.current_index = fullSched.current_index ∧
      (fullSched.spawn_thread TrapFrame.new 0 0 0 0).1.next_tid = fullSched.next_tid + 1) :=
  ⟨rfl, C10_spawn_full_table fullSched TrapFrame.new 0 0 0 0 rfl⟩

end ClaimC10

section ClaimC2

/-- Claim **C2** (trap reconciliation): for a `finish_trap` whose recorded
"last trap thread" is `entry` and whose live frame / pc cell hold
`frame` / `pc`: (1) if the current TCB equals `entry`, the live frame
and pc cell are left unchanged; (2) if they differ — current slot `j`
holding `t`, distinct from the entry slot `i` — the live frame receives
`t`'s saved Thread Context fields (`sp`, `tp`, `ra`, `gp`, return
value) and the pc cell receives `t.saved_pc`. -/
theorem C2_trap_reconciliation (s : Scheduler) (entry : Option Nat) (frame : TrapFrame)
    (pc : Nat) :
    (s.current_thread_index = entry →
      (s.finish_trap entry frame pc).frame_out = frame ∧
      (s.finish_trap entry frame pc).mepc_out = pc) ∧
    (∀ i j t, entry = some i → s.current_thread_index = some j → j ≠ i →
      s.getSlot j = some t →
      (s.finish_trap entry frame pc).frame_out =
        apply_thread_ctx_to_frame t.trap_frame t.thread_ctx ∧
      (s.finish_trap entry frame pc).frame_out.sp = t.thread_ctx.sp ∧
      (s.finish_trap entry frame pc).frame_out.tp = t.thread_ctx.tp ∧
      (s.finish_trap entry frame pc).frame_out.ra = t.thread_ctx.ra ∧
      (s.finish_trap entry frame pc).frame_out.gp = t.thread_ctx.gp ∧
      (s.finish_trap entry frame pc).frame_out.a0 = t.thread_ctx.retval ∧
      (s.finish_trap entry frame pc).mepc_out = t.saved_pc) := by
  constructor
  · intro hsame
    unfold Scheduler.finish_trap
    rw [if_neg (by simp [hsame])]
    cases entry <;> exact ⟨rfl, rfl⟩
  · intro i j t hentry hcur hne hslot
    subst hentry
    unfold Scheduler.finish_trap
    rw [if_pos (by simp [hcur, hne])]
    rw [hcur]
    dsimp only
    rw [getSlot_modifyTCB, if_neg hne, hslot]
    exact ⟨rfl, rfl, rfl, rfl, rfl, rfl, rfl⟩

/-- The two-thread scheduler right after the first spawn. -/
def twoThreadSched : Scheduler := (Scheduler.new.spawn_thread TrapFrame.new 0 0 0 0).1

/-- State of `twoThreadSched` after one `yield_now`: the child (slot 1) runs. -/
def twoThreadSchedB : Scheduler := twoThreadSched.yield_now

/-- The TCB sitting in slot 1 of `twoThreadSchedB`. -/
def childRunningTCB : ThreadControlBlock :=
  { trap_frame := TrapFrame.new
    thread_ctx := ThreadContext.new
    tid := 2
    state := ThreadState.Running
    saved_pc := 0
    futex_wait_addr := 0
    clear_child_tid := 0 }

/-- A frame with recognizable field values, for the C2 witness. -/
def markedFrame : TrapFrame :=
  { TrapFrame.new with ra := 11, sp := 22, gp := 33, tp := 44, a0 := 55, mepc := 66 }

/-- Witness for C2: both the unchanged case (current = entry, on
`twoThreadSched`) and the switch case (entry slot 0, current slot 1, on
`twoThreadSchedB`). -/
theorem C2_trap_reconciliation_witness :
    ((twoThreadSched.finish_trap (some 0) markedFrame 77).frame_out = markedFrame ∧
      (twoThreadSched.finish_trap (some 0) markedFrame 77).mepc_out = 77) ∧
    ((twoThreadSchedB.finish_trap (some 0) markedFrame 77).frame_out =
        apply_thread_ctx_to_frame childRunningTCB.trap_frame childRunningTCB.thread_ctx ∧
      (twoThreadSchedB.finish_trap (some 0) markedFrame 77).frame_out.sp =
        childRunningTCB.thread_ctx.sp ∧
      (twoThreadSchedB.finish_trap (some 0) markedFrame 77).frame_out.tp =
        childRunningTCB.thread_ctx.tp ∧
      (twoThreadSchedB.finish_trap (some 0) markedFrame 77).frame_out.ra =
        childRunningTCB.thread_ctx.ra ∧
      (twoThreadSchedB.finish_trap (some 0) markedFrame 77).frame_out.gp =
        childRunningTCB.thread_ctx.gp ∧
      (twoThreadSchedB.finish_trap (some 0) markedFrame 77).frame_out.a0 =
        childRunningTCB.thread_ctx.retval ∧
      (twoThreadSchedB.finish_trap (some 0) markedFrame 77).mepc_out =
        childRunningTCB.saved_pc) :=
  ⟨(C2_trap_reconciliation twoThreadSched (some 0) markedFrame 77).1 (by decide),
    (C2_trap_reconciliation twoThreadSchedB (some 0) markedFrame 77).2 0 1 childRunningTCB
      rfl (by decide) (by decide) (by decide)⟩

end ClaimC2

section WakeLoop

theorem getD_some_lt_length {α : Type} {l : List (Option α)} {i : Nat} {t : α}
    (h : l.getD i none = some t) : i < l.length := by
  by_contra hlt
  rw [List.getD_eq_getElem?_getD, List.getElem?_eq_none (le_of_not_lt hlt)] at h
  exact Option.noConfusion h

theorem getD_set_self {α : Type} {l : List α} {i : Nat} (a d : α) (h : i < l.length) :
    (l.set i a).getD i d = a := by
  rw [List.getD_eq_getElem?_getD, List.getElem?_set_eq_of_lt a h]
  rfl

theorem getD_set_of_ne {α : Type} {l : List α} {i j : Nat} (a d : α) (h : j ≠ i) :
    (l.set i a).getD j d = l.getD j d := by
  rw [List.getD_eq_getElem?_getD, List.getElem?_set_ne (Ne.symm h), ← List.getD_eq_getElem?_getD]

theorem wake_loop_eq_stop {l : List (Option ThreadControlBlock)} {count addr k i w : Nat}
    (h : ¬ i < count) : wake_futex_loop l count addr k i w = (l, w) := by
  rw [wake_futex_loop, if_neg h]

theorem wake_loop_eq_break {l : List (Option ThreadControlBlock)} {count addr k i w : Nat}
    (hi : i < count) (h : w ≥ k) : wake_futex_loop l count addr k i w = (l, w) := by
  rw [wake_futex_loop, if_pos hi, if_pos h]

theorem wake_loop_eq_none {l : List (Option ThreadControlBlock)} {count addr k i w : Nat}
    (hi : i < count) (hk : ¬ w ≥ k) (hslot : l.getD i none = none) :
    wake_futex_loop l count addr k i w = wake_futex_loop l count addr k (i + 1) w := by
  rw [wake_futex_loop, if_pos hi, if_neg hk, hslot]

theorem wake_loop_eq_skip {l : List (Option ThreadControlBlock)} {count addr k i w : Nat}
    {t : ThreadControlBlock} (hi : i < count) (hk : ¬ w ≥ k)
    (hslot : l.getD i none = some t)
    (hbf : ¬ (t.state = ThreadState.Blocked ∧ t.futex_wait_addr = addr)) :
    wake_futex_loop l count addr k i w = wake_futex_loop l count addr k (i + 1) w := by
  rw [wake_futex_loop, if_pos hi, if_neg hk, hslot]
  exact if_neg hbf

theorem wake_loop_eq_wake {l : List (Option ThreadControlBlock)} {count addr k i w : Nat}
    {t : ThreadControlBlock} (hi : i < count) (hk : ¬ w ≥ k)
    (hslot : l.getD i none = some t)
    (hbf : t.state = ThreadState.Blocked ∧ t.futex_wait_addr = addr) :
    wake_futex_loop l count addr k i w =
      wake_futex_loop
        (l.set i (some { t with state := ThreadState.Ready, futex_wait_addr := 0 }))
        count addr k (i + 1) (w + 1) := by
  rw [wake_futex_loop, if_pos hi, if_neg hk, hslot]
  exact if_pos hbf

/-- Full characterization of the `wake_futex` scan, by functional
induction over the loop: the woken count is bounded by `max_count`,
only `Blocked` TCBs waiting on exactly `futex_addr` change (each
becoming `Ready` with its wait address cleared), slots outside the
scanned range are untouched, and the return value counts exactly the
changed slots. -/
theorem wake_futex_loop_spec (l : List (Option ThreadControlBlock)) (count addr k i w : Nat) :
    w ≤ k →
    (wake_futex_loop l count addr k i w).2 ≤ k ∧
    (wake_futex_loop l count addr k i w).1.length = l.length ∧
    (∀ j, j < i ∨ count ≤ j →
      (wake_futex_loop l count addr k i w).1.getD j none = l.getD j none) ∧
    (∀ j, (wake_futex_loop l count addr k i w).1.getD j none ≠ l.getD j none →
      ∃ t, l.getD j none = some t ∧ t.state = ThreadState.Blocked ∧
        t.futex_wait_addr = addr ∧
        (wake_futex_loop l count addr k i w).1.getD j none =
          some { t with state := ThreadState.Ready, futex_wait_addr := 0 }) ∧
    ((wake_futex_loop l count addr k i w).2 = w +
      (List.range' i (count - i)).countP
        (fun j =>
          decide ((wake_futex_loop l count addr k i w).1.getD j none ≠ l.getD j none))) ∧
    (k ≤ w → wake_futex_loop l count addr k i w = (l, w)) := by
  induction l, count, addr, k, i, w using wake_futex_loop.induct with
  | case1 l count addr k i w hi hk =>
      intro hw
      rw [wake_loop_eq_break hi hk]
      refine ⟨hw, rfl, fun j _ => rfl, fun j hne => absurd rfl hne, ?_, fun _ => rfl⟩
      simp
  | case2 l count addr k i w hi hk t hslot hbf ih =>
      intro hw
      have hwk : w < k := lt_of_not_ge hk
      have hlen : i < l.length := getD_some_lt_length hslot
      rw [wake_loop_eq_wake hi hk hslot hbf]
      set u : ThreadControlBlock :=
        { t with state := ThreadState.Ready, futex_wait_addr := 0 } with hu
      obtain ⟨a1, a2, a3, a4, a5, _⟩ := ih (by omega)
      have hset_i : (l.set i (some u)).getD i none = some u := getD_set_self _ _ hlen
      have hset_ne : ∀ j, j ≠ i → (l.set i (some u)).getD j none = l.getD j none :=
        fun j hj => getD_set_of_ne _ _ hj
      have hne_ut : some u ≠ some t := by
        intro hut
        have := congrArg (fun o => o.map (fun x => x.state)) hut
        simp [hu, hbf.1] at this
      refine ⟨a1, a2.trans (List.length_set l i (some u)), ?_, ?_, ?_, fun hcon => by omega⟩
      · intro j hj
        have hji : j ≠ i := by rcases hj with hj | hj <;> omega
        rw [a3 j (by rcases hj with hj | hj; exact Or.inl (by omega); exact Or.inr hj),
          hset_ne j hji]
      · intro j hne
        by_cases hji : j = i
        · subst hji
          refine ⟨t, hslot, hbf.1, hbf.2, ?_⟩
          rw [a3 j (Or.inl (by omega)), hset_i]
        · have hlj := hset_ne j hji
          by_cases hch : (wake_futex_loop (l.set i (some u)) count addr k (i + 1) (w + 1)).1.getD
              j none = (l.set i (some u)).getD j none
          · exact absurd (hch.trans hlj) hne
          · obtain ⟨t2, h1, h2, h3, h4⟩ := a4 j hch
            exact ⟨t2, hlj ▸ h1, h2, h3, h4⟩
      · have hcnt : count - i = (count - (i + 1)) + 1 := by omega
        rw [hcnt, List.range'_succ]
        rw [List.countP_cons]
        have hpred_i :
            (decide ((wake_futex_loop (l.set i (some u)) count addr k (i + 1) (w + 1)).1.getD
              i none ≠ l.getD i none)) = true := by
          rw [a3 i (Or.inl (by omega)), hset_i, hslot]
          simpa using hne_ut
        rw [hpred_i]
        have hcongr :
            (List.range' (i + 1) (count - (i + 1))).countP
              (fun j =>
                decide ((wake_futex_loop (l.set i (some u)) count addr k (i + 1) (w + 1)).1.getD
                  j none ≠ l.getD j none)) =
            (List.range' (i + 1) (count - (i + 1))).countP
              (fun j =>
                decide ((wake_futex_loop (l.set i (some u)) count addr k (i + 1) (w + 1)).1.getD
                  j none ≠ (l.set i (some u)).getD j none)) := by
          refine List.countP_congr ?_
          intro j hj
          have hji : j ≠ i := by
            have := List.mem_range'_1.mp hj
            omega
          rw [hset_ne j hji]
        rw [hcongr]
        have h11 : (if (true = true) then 1 else 0) = 1 := rfl
        rw [h11]
        omega
  | case3 l count addr k i w hi hk t hslot hbf ih =>
      intro hw
      rw [wake_loop_eq_skip hi hk hslot hbf]
      obtain ⟨a1, a2, a3, a4, a5, _⟩ := ih hw
      refine ⟨a1, a2, ?_, a4, ?_, fun hcon => by omega⟩
      · intro j hj
        exact a3 j (by rcases hj with hj | hj; exact Or.inl (by omega); exact Or.inr hj)
      · have hcnt : count - i = (count - (i + 1)) + 1 := by omega
        rw [hcnt, List.range'_succ, List.countP_cons]
        have hpred_i :
            (decide ((wake_futex_loop l count addr k (i + 1) w).1.getD i none ≠
              l.getD i none)) = false := by
          rw [a3 i (Or.inl (by omega))]
          simp
        rw [hpred_i]
        have h00 : (if (false = true) then 1 else 0) = 0 := rfl
        rw [h00]
        omega
  | case4 l count addr k i w hi hk hslot ih =>
      intro hw
      rw [wake_loop_eq_none hi hk hslot]
      obtain ⟨a1, a2, a3, a4, a5, _⟩ := ih hw
      refine ⟨a1, a2, ?_, a4, ?_, fun hcon => by omega⟩
      · intro j hj
        exact a3 j (by rcases hj with hj | hj; exact Or.inl (by omega); exact Or.inr hj)
      · have hcnt : count - i = (count - (i + 1)) + 1 := by omega
        rw [hcnt, List.range'_succ, List.countP_cons]
        have hpred_i :
            (decide ((wake_futex_loop l count addr k (i + 1) w).1.getD i none ≠
              l.getD i none)) = false := by
          rw [a3 i (Or.inl (by omega))]
          simp
        rw [hpred_i]
        have h00 : (if (false = true) then 1 else 0) = 0 := rfl
        rw [h00]
        omega
  | case5 l count addr k i w hi =>
      intro hw
      rw [wake_loop_eq_stop hi]
      refine ⟨hw, rfl, fun j _ => rfl, fun j hne => absurd rfl hne, ?_, fun _ => rfl⟩
      have : count - i = 0 := by omega
      simp [this]

/-- Characterization of `wake_futex` at the scheduler level: counters and untouched slots
are preserved, changed slots are exactly woken waiters, and the return
value counts them. -/
theorem wake_futex_spec (s : Scheduler) (addr k : Nat) :
    (s.wake_futex addr k).2 ≤ k ∧
    (s.wake_futex addr k).1.thread_count = s.thread_count ∧
    (s.wake_futex addr k).1.current_index = s.current_index ∧
    (s.wake_futex addr k).1.next_tid = s.next_tid ∧
    (s.wake_futex addr k).1.threads.length = s.threads.length ∧
    (∀ j, s.thread_count ≤ j → (s.wake_futex addr k).1.getSlot j = s.getSlot j) ∧
    (∀ j, (s.wake_futex addr k).1.getSlot j ≠ s.getSlot j →
      ∃ t, s.getSlot j = some t ∧ t.state = ThreadState.Blocked ∧ t.futex_wait_addr = addr ∧
        (s.wake_futex addr k).1.getSlot j =
          some { t with state := ThreadState.Ready, futex_wait_addr := 0 }) ∧
    ((s.wake_futex addr k).2 = (List.range' 0 s.thread_count).countP
      (fun j => decide ((s.wake_futex addr k).1.getSlot j ≠ s.getSlot j))) ∧
    (k = 0 → s.wake_futex addr k = (s, 0)) := by
  obtain ⟨a1, a2, a3, a4, a5, a6⟩ :=
    wake_futex_loop_spec s.threads s.thread_count addr k 0 0 (Nat.zero_le k)
  have hfst : (s.wake_futex addr k).1 =
      { s with threads := (wake_futex_loop s.threads s.thread_count addr k 0 0).1 } := rfl
  have hsnd : (s.wake_futex addr k).2 =
      (wake_futex_loop s.threads s.thread_count addr k 0 0).2 := rfl
  have hslot : ∀ j, (s.wake_futex addr k).1.getSlot j =
      (wake_futex_loop s.threads s.thread_count addr k 0 0).1.getD j none := fun _ => rfl
  refine ⟨a1, rfl, rfl, rfl, a2, ?_, ?_, ?_, ?_⟩
  · intro j hj
    exact a3 j (Or.inr hj)
  · intro j hne
    exact a4 j hne
  · have hsg : ∀ j, s.getSlot j = s.threads.getD j none := fun _ => rfl
    simp only [hsnd, hslot, hsg]
    simp only [Nat.sub_zero] at a5
    omega
  · intro hk0
    subst hk0
    have := a6 (Nat.le_refl 0)
    show ({ s with threads := (wake_futex_loop s.threads s.thread_count addr 0 0 0).1 },
      (wake_futex_loop s.threads s.thread_count addr 0 0 0).2) = (s, 0)
    rw [this]

end WakeLoop

section ClaimC6

/-- Claim **C6** (wake bounds): `wake_on_addr(addr, k)` wakes at most `k`
threads; every TCB whose state changes was `Blocked` with
`futex_wait_addr = addr` and ends `Ready` with its wait address cleared;
slots beyond the table and the current-thread index are unchanged; the
return value is exactly the number of state-changed (woken) TCBs; and
`k = 0` wakes none. -/
theorem C6_wake_bounds (s : Scheduler) (addr k : Nat) :
    (s.wake_on_addr addr k).2 ≤ k ∧
    (s.wake_on_addr addr k).1.current_index = s.current_index ∧
    (∀ i, (s.wake_on_addr addr k).1.stateAt i ≠ s.stateAt i →
      ∃ t, s.getSlot i = some t ∧ t.state = ThreadState.Blocked ∧
        t.futex_wait_addr = addr ∧
        ∃ u, (s.wake_on_addr addr k).1.getSlot i = some u ∧
          u.state = ThreadState.Ready ∧ u.futex_wait_addr = 0) ∧
    ((s.wake_on_addr addr k).2 = (List.range' 0 s.thread_count).countP
      (fun i => decide ((s.wake_on_addr addr k).1.stateAt i ≠ s.stateAt i))) ∧
    (∀ i, s.thread_count ≤ i → (s.wake_on_addr addr k).1.stateAt i = s.stateAt i) ∧
    (k = 0 → (s.wake_on_addr addr k).2 = 0 ∧
      ∀ i, (s.wake_on_addr addr k).1.stateAt i = s.stateAt i) := by
  obtain ⟨a1, a2, a3, a4, a5, a6, a7, a8, a9⟩ := wake_futex_spec s addr k
  have hfst : (s.wake_on_addr addr k).1 =
      (s.wake_futex addr k).1.setCurrentRetval (s.wake_futex addr k).2 := rfl
  have hsnd : (s.wake_on_addr addr k).2 = (s.wake_futex addr k).2 := rfl
  have hstate : ∀ i, (s.wake_on_addr addr k).1.stateAt i = (s.wake_futex addr k).1.stateAt i := by
    intro i
    rw [hfst]
    exact stateAt_setCurrentRetval _ _ i
  have hsf : ∀ i, ((s.wake_on_addr addr k).1.getSlot i).map
      (fun t => (t.state, t.futex_wait_addr)) =
      ((s.wake_futex addr k).1.getSlot i).map (fun t => (t.state, t.futex_wait_addr)) := by
    intro i
    rw [hfst]
    exact statefutex_setCurrentRetval _ _ i
  have hkey : ∀ i, ((s.wake_on_addr addr k).1.stateAt i ≠ s.stateAt i) ↔
      ((s.wake_futex addr k).1.getSlot i ≠ s.getSlot i) := by
    intro i
    constructor
    · intro hne
      intro heq
      apply hne
      rw [hstate i]
      unfold Scheduler.stateAt
      rw [heq]
    · intro hne
      obtain ⟨t, h1, h2, h3, h4⟩ := a7 i hne
      rw [hstate i]
      unfold Scheduler.stateAt
      rw [h1, h4]
      simp [h2]
  refine ⟨hsnd ▸ a1, ?_, ?_, ?_, ?_, ?_⟩
  · rw [hfst, setCurrentRetval_current_index]
    exact a3
  · intro i hne
    obtain ⟨t, h1, h2, h3, h4⟩ := a7 i ((hkey i).mp hne)
    refine ⟨t, h1, h2, h3, ?_⟩
    have := hsf i
    rw [h4] at this
    cases hx : (s.wake_on_addr addr k).1.getSlot i with
    | none => rw [hx] at this; exact Option.noConfusion this
    | some u =>
        rw [hx] at this
        simp at this
        exact ⟨u, rfl, this.1, this.2⟩
  · rw [hsnd, a8]
    refine List.countP_congr ?_
    intro j _
    simp only [decide_eq_true_eq]
    exact (Iff.symm (hkey j))
  · intro i hi
    rw [hstate i]
    unfold Scheduler.stateAt
    rw [a6 i hi]
  · intro hk0
    have h9 := a9 hk0
    constructor
    · rw [hsnd, h9]
    · intro i
      rw [hstate i, h9]

/-- Witness: C6 instantiated at a concrete scheduler and count. -/
theorem C6_wake_bounds_witness :
    (twoThreadSched.wake_on_addr 500 0).2 ≤ 0 ∧
    (twoThreadSched.wake_on_addr 500 0).1.current_index = twoThreadSched.current_index ∧
    (∀ i, (twoThreadSched.wake_on_addr 500 0).1.stateAt i ≠ twoThreadSched.stateAt i →
      ∃ t, twoThreadSched.getSlot i = some t ∧ t.state = ThreadState.Blocked ∧
        t.futex_wait_addr = 500 ∧
        ∃ u, (twoThreadSched.wake_on_addr 500 0).1.getSlot i = some u ∧
          u.state = ThreadState.Ready ∧ u.futex_wait_addr = 0) ∧
    ((twoThreadSched.wake_on_addr 500 0).2 =
      (List.range' 0 twoThreadSched.thread_count).countP
        (fun i => decide ((twoThreadSched.wake_on_addr 500 0).1.stateAt i ≠
          twoThreadSched.stateAt i))) ∧
    (∀ i, twoThreadSched.thread_count ≤ i →
      (twoThreadSched.wake_on_addr 500 0).1.stateAt i = twoThreadSched.stateAt i) ∧
    ((0 : Nat) = 0 → (twoThreadSched.wake_on_addr 500 0).2 = 0 ∧
      ∀ i, (twoThreadSched.wake_on_addr 500 0).1.stateAt i = twoThreadSched.stateAt i) :=
  C6_wake_bounds twoThreadSched 500 0

end ClaimC6

section ClaimC7

/-- Claim **C7** (main-exit terminates): when the current thread has `tid = 1`,
`exit_current_and_yield(code)` writes `(code << 1) | 1` to the `tohost`
channel, promotes no other TCB to `Running`, and leaves the current
thread index unchanged; when there is no current thread, the same
encoding is written and the scheduler is untouched. -/
theorem C7_main_exit (s : Scheduler) (code : Int) :
    ((∃ t, s.current_thread = some t ∧ t.tid = 1) →
      (s.exit_current_and_yield code).tohost = some (encode_tohost code) ∧
      (s.exit_current_and_yield code).sched.current_index = s.current_index ∧
      (∀ i, i ≠ s.current_index →
        (s.exit_current_and_yield code).sched.stateAt i = some ThreadState.Running →
          s.stateAt i = some ThreadState.Running)) ∧
    (s.current_thread = none →
      (s.exit_current_and_yield code).tohost = some (encode_tohost code) ∧
      (s.exit_current_and_yield code).sched = s) := by
  constructor
  · rintro ⟨t, hcur, htid⟩
    have hsA : ∀ i, i ≠ s.current_index →
        (s.modifyTCB s.current_index
          (fun t => { t with state := ThreadState.Exited })).stateAt i = s.stateAt i := by
      intro i hi
      rw [stateAt_modifyTCB, if_neg hi]
    unfold Scheduler.exit_current_and_yield
    rw [hcur]
    dsimp only
    rw [if_pos htid]
    by_cases hclear : t.clear_child_tid ≠ 0
    · rw [if_pos hclear]
      obtain ⟨_, _, b3, _, _, _, b7, _, _⟩ :=
        wake_futex_spec
          (s.modifyTCB s.current_index (fun t => { t with state := ThreadState.Exited }))
          t.clear_child_tid (USIZE_MOD - 1)
      refine ⟨rfl, ?_, ?_⟩
      · exact b3
      · intro i hi hrun
        set sA := s.modifyTCB s.current_index (fun t => { t with state := ThreadState.Exited })
          with hsadef
        by_cases hch : (sA.wake_futex t.clear_child_tid (USIZE_MOD - 1)).1.getSlot i =
            sA.getSlot i
        · rw [← hsA i hi]
          unfold Scheduler.stateAt at hrun ⊢
          rw [← hch]
          exact hrun
        · obtain ⟨t2, h1, h2, h3, h4⟩ := b7 i hch
          unfold Scheduler.stateAt at hrun
          rw [h4] at hrun
          simp at hrun
    · rw [if_neg hclear]
      refine ⟨rfl, rfl, ?_⟩
      intro i hi hrun
      rw [hsA i hi] at hrun
      exact hrun
  · intro hnone
    unfold Scheduler.exit_current_and_yield
    rw [hnone]
    exact ⟨rfl, rfl⟩

/-- The main TCB as it sits (running, pending retval 2) in
`twoThreadSched`. -/
def mainRunningTCB : ThreadControlBlock :=
  { trap_frame := TrapFrame.new
    thread_ctx := { ThreadContext.new with retval := 2 }
    tid := 1
    state := ThreadState.Running
    saved_pc := 0
    futex_wait_addr := 0
    clear_child_tid := 0 }

/-- Witness for C7: the main thread of `twoThreadSched` exiting with
code 7, and an unscheduled exit on the fresh scheduler. -/
theorem C7_main_exit_witness :
    ((twoThreadSched.exit_current_and_yield 7).tohost = some (encode_tohost 7) ∧
      (twoThreadSched.exit_current_and_yield 7).sched.current_index =
        twoThreadSched.current_index ∧
      (∀ i, i ≠ twoThreadSched.current_index →
        (twoThreadSched.exit_current_and_yield 7).sched.stateAt i =
            some ThreadState.Running →
          twoThreadSched.stateAt i = some ThreadState.Running)) ∧
    ((Scheduler.new.exit_current_and_yield 7).tohost = some (encode_tohost 7) ∧
      (Scheduler.new.exit_current_and_yield 7).sched = Scheduler.new) :=
  ⟨(C7_main_exit twoThreadSched 7).1 ⟨mainRunningTCB, by decide⟩,
    (C7_main_exit Scheduler.new 7).2 (by decide)⟩

end ClaimC7

section SpawnHelpers

/-- The child TCB built by a successful `spawn_thread` for tid `tid`. -/
def spawnChild (pc : TrapFrame) (stack tls ccp mepc tid : Nat) : ThreadControlBlock :=
  let stack_base := stack &&& (USIZE_MOD - 16)
  let ctx : ThreadContext :=
    { sync_thread_ctx_from_frame pc with sp := stack_base, tp := tls, retval := 0 }
  { trap_frame := { apply_thread_ctx_to_frame pc ctx with s0 := stack_base }
    thread_ctx := ctx
    tid := tid
    state := ThreadState.Ready
    saved_pc := mepc
    futex_wait_addr := 0
    clear_child_tid := ccp }

/-- The main TCB materialized by the first `spawn_thread`. -/
def mainThreadTCB (pc : TrapFrame) (mepc : Nat) : ThreadControlBlock :=
  { trap_frame := pc
    thread_ctx := sync_thread_ctx_from_frame pc
    tid := 1
    state := ThreadState.Running
    saved_pc := mepc
    futex_wait_addr := 0
    clear_child_tid := 0 }

/-- Behavior of `spawn_thread` on a non-empty, non-full table. -/
theorem spawn_thread_succ_pos (s : Scheduler) (pc : TrapFrame) (stack tls ccp mepc : Nat)
    (h0 : s.thread_count ≠ 0) (hlt : s.thread_count < MAX_THREADS) :
    s.spawn_thread pc stack tls ccp mepc =
      (({ s with
          threads := s.threads.set s.thread_count
            (some (spawnChild pc stack tls ccp mepc s.next_tid))
          thread_count := s.thread_count + 1
          next_tid := s.next_tid + 1 } : Scheduler).setCurrentRetval s.next_tid,
        (s.next_tid : Int)) := by
  unfold Scheduler.spawn_thread
  rw [if_neg h0]
  dsimp only
  split
  next hge => exact absurd (by simpa [MAX_THREADS] using hge) (by omega)
  next hge => rfl

/-- The first `spawn_thread` on an empty table: materializes the main
thread in slot 0 and the child in slot 1. -/
theorem spawn_thread_succ_zero (s : Scheduler) (pc : TrapFrame) (stack tls ccp mepc : Nat)
    (h0 : s.thread_count = 0) :
    s.spawn_thread pc stack tls ccp mepc =
      (({ s with
          threads := (s.threads.set 0 (some (mainThreadTCB pc mepc))).set 1
            (some (spawnChild pc stack tls ccp mepc 2))
          thread_count := 2
          current_index := 0
          next_tid := 3 } : Scheduler).setCurrentRetval 2,
        (2 : Int)) := by
  unfold Scheduler.spawn_thread
  rw [if_pos h0]
  dsimp only
  split
  next hge => exact absurd hge (by decide)
  next hge => rfl

theorem current_thread_isSome_lt (s : Scheduler) (h : (s.current_thread).isSome) :
    s.current_index < s.thread_count := by
  unfold Scheduler.current_thread at h
  by_cases hlt : s.current_index < s.thread_count
  · exact hlt
  · rw [if_neg hlt] at h
    exact absurd h (by simp)

theorem current_thread_getSlot {s : Scheduler} {t : ThreadControlBlock}
    (h : s.current_thread = some t) : s.getSlot s.current_index = some t := by
  unfold Scheduler.current_thread at h
  by_cases hlt : s.current_index < s.thread_count
  · rw [if_pos hlt] at h
    exact h
  · rw [if_neg hlt] at h
    exact Option.noConfusion h

theorem getSlot_setCurrentRetval_ne (s : Scheduler) (v j : Nat) (hj : j ≠ s.current_index) :
    (s.setCurrentRetval v).getSlot j = s.getSlot j := by
  unfold Scheduler.setCurrentRetval
  cases s.current_thread with
  | none => rfl
  | some t => rw [getSlot_modifyTCB, if_neg hj]

theorem getSlot_setCurrentRetval_cur {s : Scheduler} {t : ThreadControlBlock} (v : Nat)
    (h : s.current_thread = some t) :
    (s.setCurrentRetval v).getSlot s.current_index =
      some { t with thread_ctx := { t.thread_ctx with retval := v } } := by
  have hslot := current_thread_getSlot h
  unfold Scheduler.setCurrentRetval
  rw [h]
  rw [getSlot_modifyTCB, if_pos rfl, hslot]
  rfl

end SpawnHelpers

section ClaimC5

/-- Claim **C5** (spawn postcondition): every successful
`spawn_thread(parent_context, stack, tls, ccp, mepc)` creates a child
whose Thread Context is the parent context's projection except that
`sp = stack` with the low 4 bits cleared, `tp = tls` and the pending
return value is `0`; the child's `clear_child_tid` is as given; and the
parent (current) TCB's pending return value is set to the new Tid,
which is also the call's return value. -/
theorem C5_spawn_postcondition (s : Scheduler) (pc : TrapFrame) (stack tls ccp mepc : Nat)
    (hwf : s.WF) (hroom : s.thread_count < MAX_THREADS)
    (hpar : s.thread_count = 0 ∨ (s.current_thread).isSome) :
    (s.spawn_thread pc stack tls ccp mepc).2 =
      (((if s.thread_count = 0 then 2 else s.next_tid) : Nat) : Int) ∧
    (∃ child,
      (s.spawn_thread pc stack tls ccp mepc).1.getSlot
        (if s.thread_count = 0 then 1 else s.thread_count) = some child ∧
      child.thread_ctx = { sync_thread_ctx_from_frame pc with
        sp := stack &&& (USIZE_MOD - 16), tp := tls, retval := 0 } ∧
      child.clear_child_tid = ccp ∧
      child.tid = (if s.thread_count = 0 then 2 else s.next_tid) ∧
      child.state = ThreadState.Ready) ∧
    (∃ p, (s.spawn_thread pc stack tls ccp mepc).1.current_thread = some p ∧
      p.thread_ctx.retval = (if s.thread_count = 0 then 2 else s.next_tid)) := by
  have hlen : s.threads.length = 64 := hwf
  by_cases h0 : s.thread_count = 0
  · rw [spawn_thread_succ_zero s pc stack tls ccp mepc h0, if_pos h0, if_pos h0]
    set sC : Scheduler :=
      { s with
        threads := (s.threads.set 0 (some (mainThreadTCB pc mepc))).set 1
          (some (spawnChild pc stack tls ccp mepc 2))
        thread_count := 2
        current_index := 0
        next_tid := 3 } with hsC
    have hslot0 : sC.getSlot 0 = some (mainThreadTCB pc mepc) := by
      show ((s.threads.set 0 (some (mainThreadTCB pc mepc))).set 1
        (some (spawnChild pc stack tls ccp mepc 2))).getD 0 none = _
      rw [getD_set_of_ne _ _ (by omega)]
      exact getD_set_self _ _ (by omega)
    have hslot1 : sC.getSlot 1 = some (spawnChild pc stack tls ccp mepc 2) := by
      show ((s.threads.set 0 (some (mainThreadTCB pc mepc))).set 1
        (some (spawnChild pc stack tls ccp mepc 2))).getD 1 none = _
      exact getD_set_self _ _ (by simp [hlen])
    have hcuridx : sC.current_index = 0 := rfl
    have hcur : sC.current_thread = some (mainThreadTCB pc mepc) := by
      unfold Scheduler.current_thread
      rw [show sC.thread_count = 2 from rfl, hcuridx]
      rw [if_pos (by omega)]
      exact hslot0
    refine ⟨rfl, ⟨spawnChild pc stack tls ccp mepc 2, ?_, rfl, rfl, rfl, rfl⟩, ?_⟩
    · exact (getSlot_setCurrentRetval_ne sC 2 1 (by rw [hcuridx]; omega)).trans hslot1
    · refine ⟨{ mainThreadTCB pc mepc with
        thread_ctx := { (mainThreadTCB pc mepc).thread_ctx with retval := 2 } }, ?_, rfl⟩
      have hgs := getSlot_setCurrentRetval_cur 2 hcur
      rw [hcuridx] at hgs
      unfold Scheduler.current_thread
      rw [show (sC.setCurrentRetval 2).thread_count = 2 from
        (setCurrentRetval_thread_count sC 2).trans rfl,
        show (sC.setCurrentRetval 2).current_index = 0 from
        (setCurrentRetval_current_index sC 2).trans rfl]
      rw [if_pos (by omega)]
      exact hgs
  · have hsome : (s.current_thread).isSome := hpar.resolve_left h0
    obtain ⟨p0, hp0⟩ : ∃ p0, s.current_thread = some p0 := by
      cases hcl : s.current_thread with
      | none => rw [hcl] at hsome; exact absurd hsome (by simp)
      | some p0 => exact ⟨p0, rfl⟩
    have hcurlt : s.current_index < s.thread_count := current_thread_isSome_lt s hsome
    rw [spawn_thread_succ_pos s pc stack tls ccp mepc h0 hroom, if_neg h0, if_neg h0]
    set sC : Scheduler :=
      { s with
        threads := s.threads.set s.thread_count
          (some (spawnChild pc stack tls ccp mepc s.next_tid))
        thread_count := s.thread_count + 1
        next_tid := s.next_tid + 1 } with hsC
    have hcuridx : sC.current_index = s.current_index := rfl
    have hslotk : sC.getSlot s.thread_count = some (spawnChild pc stack tls ccp mepc s.next_tid) := by
      show (s.threads.set s.thread_count
        (some (spawnChild pc stack tls ccp mepc s.next_tid))).getD s.thread_count none = _
      exact getD_set_self _ _ (by simp [hlen, MAX_THREADS] at hroom ⊢; omega)
    have hslotc : sC.getSlot s.current_index = some p0 := by
      show (s.threads.set s.thread_count
        (some (spawnChild pc stack tls ccp mepc s.next_tid))).getD s.current_index none = _
      rw [getD_set_of_ne _ _ (by omega)]
      exact current_thread_getSlot hp0
    have hcur : sC.current_thread = some p0 := by
      unfold Scheduler.current_thread
      rw [show sC.thread_count = s.thread_count + 1 from rfl, hcuridx]
      rw [if_pos (by omega)]
      exact hslotc
    refine ⟨rfl, ⟨spawnChild pc stack tls ccp mepc s.next_tid, ?_, rfl, rfl, rfl, rfl⟩, ?_⟩
    · exact (getSlot_setCurrentRetval_ne sC s.next_tid s.thread_count
        (by rw [hcuridx]; omega)).trans hslotk
    · refine ⟨{ p0 with thread_ctx := { p0.thread_ctx with retval := s.next_tid } }, ?_, rfl⟩
      have hgs := getSlot_setCurrentRetval_cur s.next_tid hcur
      rw [hcuridx] at hgs
      unfold Scheduler.current_thread
      rw [show (sC.setCurrentRetval s.next_tid).thread_count = s.thread_count + 1 from
        (setCurrentRetval_thread_count sC s.next_tid).trans rfl,
        show (sC.setCurrentRetval s.next_tid).current_index = s.current_index from
        (setCurrentRetval_current_index sC s.next_tid).trans rfl]
      rw [if_pos (by omega)]
      exact hgs

/-- Witness for C5: the first spawn on the fresh scheduler. -/
theorem C5_spawn_postcondition_witness :
    (Scheduler.new.spawn_thread markedFrame 4919 7 9 100).2 =
      (((if Scheduler.new.thread_count = 0 then 2 else Scheduler.new.next_tid) : Nat) : Int) ∧
    (∃ child,
      (Scheduler.new.spawn_thread markedFrame 4919 7 9 100).1.getSlot
        (if Scheduler.new.thread_count = 0 then 1 else Scheduler.new.thread_count) =
          some child ∧
      child.thread_ctx = { sync_thread_ctx_from_frame markedFrame with
        sp := 4919 &&& (USIZE_MOD - 16), tp := 7, retval := 0 } ∧
      child.clear_child_tid = 9 ∧
      child.tid = (if Scheduler.new.thread_count = 0 then 2 else Scheduler.new.next_tid) ∧
      child.state = ThreadState.Ready) ∧
    (∃ p, (Scheduler.new.spawn_thread markedFrame 4919 7 9 100).1.current_thread = some p ∧
      p.thread_ctx.retval =
        (if Scheduler.new.thread_count = 0 then 2 else Scheduler.new.next_tid)) :=
  C5_spawn_postcondition Scheduler.new markedFrame 4919 7 9 100 rfl (by decide)
    (Or.inl rfl)

end ClaimC5

section RoundRobin

/-- The scheduler shape after `k` spawns and `j` full yield steps from a
fresh scheduler: `k + 1` threads in slots `0..k` with tids `1..k+1`,
slot `j` `Running` and every other slot `Ready`. -/
def RR (k j : Nat) (s : Scheduler) : Prop :=
  s.thread_count = k + 1 ∧ s.current_index = j ∧ s.threads.length = MAX_THREADS ∧
  s.next_tid = k + 2 ∧
  ∀ i, i ≤ k → ∃ t, s.getSlot i = some t ∧ t.tid = i + 1 ∧
    t.state = (if i = j then ThreadState.Running else ThreadState.Ready)

theorem modifyTCB_threads_length (s : Scheduler) (i : Nat)
    (f : ThreadControlBlock → ThreadControlBlock) :
    (s.modifyTCB i f).threads.length = s.threads.length := List.length_set _ _ _

/-- If the starting slot of the scan is itself `Ready`, `find_next_ready`
returns it. -/
theorem find_next_ready_start {s : Scheduler} {start : Nat} (hlt : start < s.thread_count)
    (hready : s.isReadyAt start = true) : s.find_next_ready start = some start := by
  unfold Scheduler.find_next_ready
  have hm : s.thread_count - start = (s.thread_count - start - 1) + 1 := by omega
  rw [hm, List.range'_succ, List.find?_cons_of_pos _ hready]

/-- Assignment `self.current_index = n`. -/
def Scheduler.setCurrentIndex (s : Scheduler) (n : Nat) : Scheduler :=
  { s with current_index := n }

theorem setCurrentIndex_thread_count (s : Scheduler) (n : Nat) :
    (s.setCurrentIndex n).thread_count = s.thread_count := rfl

theorem setCurrentIndex_threads (s : Scheduler) (n : Nat) :
    (s.setCurrentIndex n).threads = s.threads := rfl

theorem setCurrentIndex_next_tid (s : Scheduler) (n : Nat) :
    (s.setCurrentIndex n).next_tid = s.next_tid := rfl

theorem setCurrentIndex_getSlot (s : Scheduler) (n i : Nat) :
    (s.setCurrentIndex n).getSlot i = s.getSlot i := rfl

/-- One `yield_now` step in the switching case: the current (Running)
slot `j` is demoted to `Ready`, the scan finds `n ≠ j`, and slot `n` is
promoted to `Running` with `current_index` moved to `n`. -/
theorem yield_now_eq_move {s : Scheduler} {j n : Nat} {tj tn : ThreadControlBlock}
    (h0 : ¬ (s.setCurrentRetval 0).thread_count = 0)
    (hj : s.current_index = j)
    (hcur : s.current_thread = some tj)
    (hrun : tj.state = ThreadState.Running)
    (hfind : ((s.setCurrentRetval 0).modifyTCB j
        (fun t => { t with state := ThreadState.Ready })).find_next_ready
        ((j + 1) % s.thread_count) = some n)
    (hne : n ≠ j)
    (hslotn : ((s.setCurrentRetval 0).modifyTCB j
        (fun t => { t with state := ThreadState.Ready })).getSlot n = some tn) :
    s.yield_now =
      (((s.setCurrentRetval 0).modifyTCB j
          (fun t => { t with state := ThreadState.Ready })).modifyTCB n
          (fun t => { t with state := ThreadState.Running })).setCurrentIndex n := by
  have hsa := getSlot_setCurrentRetval_cur 0 hcur
  rw [hj] at hsa
  have hcond : ({ tj with thread_ctx := { tj.thread_ctx with retval := 0 }
    } : ThreadControlBlock).state = ThreadState.Running := hrun
  unfold Scheduler.yield_now
  rw [if_neg h0]
  dsimp only
  rw [setCurrentRetval_current_index, hj, hsa]
  dsimp only
  rw [if_pos hcond]
  rw [modifyTCB_thread_count, setCurrentRetval_thread_count]
  rw [hfind]
  dsimp only
  rw [if_neg hne]
  rw [hslotn]
  rfl

/-- A round-robin state advances by one slot (wrapping `k → 0`) under
`yield_now`. -/
theorem rr_yield_step {k j : Nat} {s : Scheduler} (hk : 1 ≤ k) (hj : j ≤ k)
    (hrr : RR k j s) : RR k (if j = k then 0 else j + 1) s.yield_now := by
  obtain ⟨hc, hi, hl, hn, hslots⟩ := hrr
  obtain ⟨tj, htj, htjtid, htjst⟩ := hslots j hj
  have htjrun : tj.state = ThreadState.Running := by rw [htjst]; simp
  have hcur : s.current_thread = some tj := by
    unfold Scheduler.current_thread
    rw [hi, hc, if_pos (by omega)]
    exact htj
  have hnle : (if j = k then 0 else j + 1) ≤ k := by
    by_cases hjk : j = k
    · rw [if_pos hjk]
      omega
    · rw [if_neg hjk]
      omega
  have hnne : (if j = k then 0 else j + 1) ≠ j := by
    by_cases hjk : j = k
    · rw [if_pos hjk]
      omega
    · rw [if_neg hjk]
      omega
  obtain ⟨tn, htn, htntid, htnst⟩ := hslots _ hnle
  have htnready : tn.state = ThreadState.Ready := by rw [htnst, if_neg hnne]
  have hsb_ne : ∀ i, i ≠ j →
      ((s.setCurrentRetval 0).modifyTCB j
        (fun t => { t with state := ThreadState.Ready })).getSlot i = s.getSlot i := by
    intro i hi2
    rw [getSlot_modifyTCB, if_neg hi2, getSlot_setCurrentRetval_ne _ _ _ (by rw [hi]; exact hi2)]
  have hsa := getSlot_setCurrentRetval_cur 0 hcur
  rw [hi] at hsa
  have hsb_j : ((s.setCurrentRetval 0).modifyTCB j
      (fun t => { t with state := ThreadState.Ready })).getSlot j =
      some { tj with thread_ctx := { tj.thread_ctx with retval := 0 }, state := ThreadState.Ready } := by
    rw [getSlot_modifyTCB, if_pos rfl, hsa]
    rfl
  have hsbcount : ((s.setCurrentRetval 0).modifyTCB j
      (fun t => { t with state := ThreadState.Ready })).thread_count = k + 1 := by
    rw [modifyTCB_thread_count, setCurrentRetval_thread_count, hc]
  have hslotn : ((s.setCurrentRetval 0).modifyTCB j
      (fun t => { t with state := ThreadState.Ready })).getSlot
        (if j = k then 0 else j + 1) = some tn := (hsb_ne _ hnne).trans htn
  have hready : ((s.setCurrentRetval 0).modifyTCB j
      (fun t => { t with state := ThreadState.Ready })).isReadyAt
        (if j = k then 0 else j + 1) = true := by
    unfold Scheduler.isReadyAt
    rw [hslotn]
    simp [htnready]
  have hfind : ((s.setCurrentRetval 0).modifyTCB j
      (fun t => { t with state := ThreadState.Ready })).find_next_ready
        ((j + 1) % s.thread_count) = some (if j = k then 0 else j + 1) := by
    by_cases hjk : j = k
    · have hmod : (j + 1) % s.thread_count = 0 := by
        rw [hc, hjk]
        exact Nat.mod_self (k + 1)
      rw [hmod]
      have := find_next_ready_start (by rw [hsbcount]; omega) hready
      simpa [hjk] using this
    · have hmod : (j + 1) % s.thread_count = j + 1 := by
        rw [hc]
        exact Nat.mod_eq_of_lt (by omega)
      rw [hmod]
      have := find_next_ready_start (by rw [hsbcount]; omega) hready
      simpa [hjk] using this
  have hres := yield_now_eq_move (by rw [setCurrentRetval_thread_count, hc]; omega)
    hi hcur htjrun hfind hnne hslotn
  rw [hres]
  refine ⟨?_, rfl, ?_, ?_, ?_⟩
  · rw [setCurrentIndex_thread_count, modifyTCB_thread_count]
    exact hsbcount
  · rw [setCurrentIndex_threads, modifyTCB_threads_length, modifyTCB_threads_length,
      setCurrentRetval_threads_length]
    exact hl
  · rw [setCurrentIndex_next_tid, modifyTCB_next_tid, modifyTCB_next_tid,
      setCurrentRetval_next_tid]
    exact hn
  · intro i hik
    rw [setCurrentIndex_getSlot, getSlot_modifyTCB]
    by_cases hin : i = (if j = k then 0 else j + 1)
    · rw [if_pos hin, hin, hslotn]
      exact ⟨_, rfl, by simpa [hin] using htntid, by simp [← hin]⟩
    · rw [if_neg hin]
      by_cases hij : i = j
      · subst hij
        rw [hsb_j]
        refine ⟨_, rfl, htjtid, ?_⟩
        rw [if_neg hin]
      · rw [hsb_ne i hij]
        obtain ⟨t, ht, httid, htst⟩ := hslots i hik
        refine ⟨t, ht, httid, ?_⟩
        rw [htst, if_neg hij, if_neg hin]

/-- The first spawn on a fresh scheduler produces the 2-thread
round-robin state. -/
theorem rr_spawn_zero (pc : TrapFrame) (stack tls ccp mepc : Nat) :
    RR 1 0 (Scheduler.new.spawn_thread pc stack tls ccp mepc).1 := by
  rw [spawn_thread_succ_zero Scheduler.new pc stack tls ccp mepc rfl]
  set sC : Scheduler :=
    { Scheduler.new with
      threads := (Scheduler.new.threads.set 0 (some (mainThreadTCB pc mepc))).set 1
        (some (spawnChild pc stack tls ccp mepc 2))
      thread_count := 2
      current_index := 0
      next_tid := 3 } with hsC
  have hlen0 : (0 : Nat) < (Scheduler.new.threads.set 0 (some (mainThreadTCB pc mepc))).length := by
    simp [List.length_set, Scheduler.new, MAX_THREADS]
  have hlen1 : (1 : Nat) < (Scheduler.new.threads.set 0 (some (mainThreadTCB pc mepc))).length := by
    simp [List.length_set, Scheduler.new, MAX_THREADS]
  have hslot0 : sC.getSlot 0 = some (mainThreadTCB pc mepc) := by
    show ((Scheduler.new.threads.set 0 (some (mainThreadTCB pc mepc))).set 1
      (some (spawnChild pc stack tls ccp mepc 2))).getD 0 none = _
    rw [getD_set_of_ne _ _ (by omega)]
    exact getD_set_self _ _ hlen0
  have hslot1 : sC.getSlot 1 = some (spawnChild pc stack tls ccp mepc 2) := by
    show ((Scheduler.new.threads.set 0 (some (mainThreadTCB pc mepc))).set 1
      (some (spawnChild pc stack tls ccp mepc 2))).getD 1 none = _
    exact getD_set_self _ _ (by rw [List.length_set]; exact hlen1)
  have hcur : sC.current_thread = some (mainThreadTCB pc mepc) := by
    unfold Scheduler.current_thread
    rw [show sC.current_index = 0 from rfl, show sC.thread_count = 2 from rfl,
      if_pos (by omega)]
    exact hslot0
  refine ⟨rfl, rfl, ?_, rfl, ?_⟩
  · rw [setCurrentRetval_threads_length]
    show ((Scheduler.new.threads.set 0 _).set 1 _).length = MAX_THREADS
    rw [List.length_set, List.length_set]
    rfl
  · intro i hik
    interval_cases i
    · have hgs := getSlot_setCurrentRetval_cur 2 hcur
      rw [show sC.current_index = 0 from rfl] at hgs
      exact ⟨_, hgs, rfl, rfl⟩
    · have hgs := (getSlot_setCurrentRetval_ne sC 2 1 (by rw [show sC.current_index = 0 from rfl]; omega)).trans hslot1
      exact ⟨_, hgs, rfl, rfl⟩

/-- A further spawn on an `RR k 0` state extends it to `RR (k+1) 0` and
returns tid `k + 2`. -/
theorem rr_spawn_succ {k : Nat} {s : Scheduler} (hrr : RR k 0 s) (hk : k ≤ 62)
    (pc : TrapFrame) (stack tls ccp mepc : Nat) :
    RR (k + 1) 0 (s.spawn_thread pc stack tls ccp mepc).1 ∧
    (s.spawn_thread pc stack tls ccp mepc).2 = (k : Int) + 2 := by
  obtain ⟨hc, hi, hl, hn, hslots⟩ := hrr
  have h0 : s.thread_count ≠ 0 := by omega
  have hroom : s.thread_count < MAX_THREADS := by
    show s.thread_count < 64
    omega
  rw [spawn_thread_succ_pos s pc stack tls ccp mepc h0 hroom]
  obtain ⟨t0, ht0, ht0tid, ht0st⟩ := hslots 0 (Nat.zero_le k)
  set sC : Scheduler :=
    { s with
      threads := s.threads.set s.thread_count
        (some (spawnChild pc stack tls ccp mepc s.next_tid))
      thread_count := s.thread_count + 1
      next_tid := s.next_tid + 1 } with hsC
  have hcidx : sC.current_index = 0 := by
    show s.current_index = 0
    exact hi
  have hslotc : sC.getSlot 0 = some t0 := by
    show (s.threads.set s.thread_count
      (some (spawnChild pc stack tls ccp mepc s.next_tid))).getD 0 none = _
    rw [getD_set_of_ne _ _ (by omega)]
    exact ht0
  have hslotk : sC.getSlot s.thread_count =
      some (spawnChild pc stack tls ccp mepc s.next_tid) := by
    show (s.threads.set s.thread_count
      (some (spawnChild pc stack tls ccp mepc s.next_tid))).getD s.thread_count none = _
    refine getD_set_self _ _ ?_
    rw [hl]
    show s.thread_count < 64
    omega
  have hcur : sC.current_thread = some t0 := by
    unfold Scheduler.current_thread
    rw [hcidx, show sC.thread_count = s.thread_count + 1 from rfl, if_pos (by omega)]
    exact hslotc
  constructor
  · refine ⟨?_, ?_, ?_, ?_, ?_⟩
    · rw [setCurrentRetval_thread_count]
      show s.thread_count + 1 = k + 1 + 1
      omega
    · rw [setCurrentRetval_current_index]
      exact hcidx
    · rw [setCurrentRetval_threads_length]
      show (s.threads.set s.thread_count _).length = MAX_THREADS
      rw [List.length_set]
      exact hl
    · rw [setCurrentRetval_next_tid]
      show s.next_tid + 1 = k + 1 + 2
      omega
    · intro i hik
      by_cases hiz : i = 0
      · subst hiz
        have hgs := getSlot_setCurrentRetval_cur s.next_tid hcur
        rw [hcidx] at hgs
        refine ⟨_, hgs, ?_, ?_⟩
        · exact ht0tid
        · rw [if_pos rfl]
          simpa using ht0st
      · have hgs := getSlot_setCurrentRetval_ne sC s.next_tid i (by rw [hcidx]; exact hiz)
        by_cases hike : i = s.thread_count
        · refine ⟨_, hgs.trans (by rw [hike]; exact hslotk), ?_, ?_⟩
          · show s.next_tid = i + 1
            omega
          · rw [if_neg hiz]
            rfl
        · have hile : i ≤ k := by omega
          obtain ⟨t, ht, httid, htst⟩ := hslots i hile
          have hget : sC.getSlot i = some t := by
            show (s.threads.set s.thread_count _).getD i none = _
            rw [getD_set_of_ne _ _ hike]
            exact ht
          refine ⟨t, hgs.trans hget, httid, ?_⟩
          rw [htst, if_neg hiz]
  · show (s.next_tid : Int) = (k : Int) + 2
    rw [hn]
    push_cast
    ring

/-- After `n` spawns (`1 ≤ n ≤ 63`) from a fresh scheduler, the table is
in the round-robin state `RR n 0`. -/
theorem spawns_rr {n : Nat} {s : Scheduler} (hsp : Spawns n s) :
    1 ≤ n → n ≤ 63 → RR n 0 s := by
  induction hsp with
  | zero =>
      intro h1 _
      exact absurd h1 (by omega)
  | @succ m sm f stack tls ccp mepc prev ih =>
      intro _ h63
      rcases Nat.eq_zero_or_pos m with hz | hpos
      · subst hz
        cases prev
        exact rr_spawn_zero f stack tls ccp mepc
      · exact (rr_spawn_succ (ih hpos (by omega)) (by omega) f stack tls ccp mepc).1

end RoundRobin

section ClaimC9

/-- Claim **C9** (spawn numbering): on a fresh scheduler the first
`spawn_thread` materializes the main thread (tid 1, `Running`, slot 0)
and returns tid 2; thereafter, the (n+1)-st successful spawn of a pure
spawn sequence returns `n + 2` — one greater than the `n`-th's return
`n + 1`. -/
theorem C9_spawn_numbering :
    (∀ (pc : TrapFrame) (stack tls ccp mepc : Nat),
      (Scheduler.new.spawn_thread pc stack tls ccp mepc).2 = 2 ∧
      ∃ m, (Scheduler.new.spawn_thread pc stack tls ccp mepc).1.getSlot 0 = some m ∧
        m.tid = 1 ∧ m.state = ThreadState.Running) ∧
    (∀ (n : Nat) (s : Scheduler) (pc : TrapFrame) (stack tls ccp mepc : Nat),
      Spawns n s → 1 ≤ n → n ≤ 62 →
      (s.spawn_thread pc stack tls ccp mepc).2 = (n : Int) + 2) := by
  constructor
  · intro pc stack tls ccp mepc
    obtain ⟨-, -, -, -, hslots⟩ := rr_spawn_zero pc stack tls ccp mepc
    obtain ⟨m, hm, hmtid, hmst⟩ := hslots 0 (by omega)
    refine ⟨?_, m, hm, hmtid, by simpa using hmst⟩
    rw [spawn_thread_succ_zero Scheduler.new pc stack tls ccp mepc rfl]
  · intro n s pc stack tls ccp mepc hsp h1 h62
    exact (rr_spawn_succ (spawns_rr hsp h1 (by omega)) (by omega) pc stack tls ccp mepc).2

/-- Witness for C9: the first and second spawns from fresh. -/
theorem C9_spawn_numbering_witness :
    ((Scheduler.new.spawn_thread TrapFrame.new 0 0 0 0).2 = 2 ∧
      ∃ m, (Scheduler.new.spawn_thread TrapFrame.new 0 0 0 0).1.getSlot 0 = some m ∧
        m.tid = 1 ∧ m.state = ThreadState.Running) ∧
    (twoThreadSched.spawn_thread TrapFrame.new 0 0 0 0).2 = ((1 : Nat) : Int) + 2 :=
  ⟨C9_spawn_numbering.1 TrapFrame.new 0 0 0 0,
    C9_spawn_numbering.2 1 twoThreadSched TrapFrame.new 0 0 0 0
      (Spawns.succ TrapFrame.new 0 0 0 0 Spawns.zero) (by omega) (by omega)⟩

end ClaimC9

section ClaimC4

theorem yieldIter_succ_out (n : Nat) : ∀ s : Scheduler,
    yieldIter (n + 1) s = (yieldIter n s).yield_now := by
  induction n with
  | zero => intro s; rfl
  | succ n ih =>
      intro s
      show yieldIter (n + 1) s.yield_now = (yieldIter (n + 1) s).yield_now
      rw [ih s.yield_now]
      rfl

/-- Claim **C4, counterexample**: after spawning N = 1 thread, N = 1 call to
`yield_now` does *not* return control to the original (main, tid 1)
thread: the scheduler is left on the child (slot 1, tid 2). -/
theorem C4_counterexample :
    Spawns 1 twoThreadSched ∧
    twoThreadSched.current_index = 0 ∧
    twoThreadSched.current_tid_or_1 = 1 ∧
    (yieldIter 1 twoThreadSched).current_index = 1 ∧
    (yieldIter 1 twoThreadSched).current_tid_or_1 = 2 :=
  ⟨Spawns.succ TrapFrame.new 0 0 0 0 Spawns.zero, by decide, by decide, by decide, by decide⟩

/-- Claim **C4, amended** (round-robin cycle): spawning N threads from a fresh
scheduler leaves a table of N+1 threads (main plus N children); each
`yield_now` then moves `current` to the next slot in ascending index
order (the j-th yield lands on slot j), and the (N+1)-st yield — not the
N-th — wraps around and returns control to the original main thread
(tid 1, slot 0). -/
theorem C4_round_robin_cycle (k : Nat) (s : Scheduler) (hsp : Spawns k s)
    (hk1 : 1 ≤ k) (hk : k ≤ 63) :
    (∀ j, j ≤ k → (yieldIter j s).current_index = j) ∧
    (yieldIter (k + 1) s).current_index = 0 ∧
    (yieldIter (k + 1) s).current_tid_or_1 = 1 := by
  have hrr0 : RR k 0 s := spawns_rr hsp hk1 hk
  have hiter : ∀ j, j ≤ k → RR k j (yieldIter j s) := by
    intro j
    induction j with
    | zero =>
        intro _
        exact hrr0
    | succ j ih =>
        intro hj
        have hstep := rr_yield_step hk1 (by omega) (ih (by omega))
        rw [if_neg (by omega : ¬ j = k)] at hstep
        rw [yieldIter_succ_out j s]
        exact hstep
  refine ⟨fun j hj => ((hiter j hj).2.1), ?_⟩
  have hstep := rr_yield_step hk1 (le_refl k) (hiter k (le_refl k))
  rw [if_pos rfl] at hstep
  rw [yieldIter_succ_out k s]
  obtain ⟨hc, hi, hl, hn, hslots⟩ := hstep
  obtain ⟨t, ht, httid, htst⟩ := hslots 0 (Nat.zero_le k)
  refine ⟨hi, ?_⟩
  unfold Scheduler.current_tid_or_1 Scheduler.current_thread
  rw [hi, hc, if_pos (by omega), ht]
  simpa using httid

/-- Witness for the amended C4 at N = 1: two yields return to main. -/
theorem C4_round_robin_cycle_witness :
    (∀ j, j ≤ 1 → (yieldIter j twoThreadSched).current_index = j) ∧
    (yieldIter 2 twoThreadSched).current_index = 0 ∧
    (yieldIter 2 twoThreadSched).current_tid_or_1 = 1 :=
  C4_round_robin_cycle 1 twoThreadSched (Spawns.succ TrapFrame.new 0 0 0 0 Spawns.zero)
    (by omega) (by omega)

end ClaimC4

section ClaimC1

/-- The scheduler invariant maintained by every public operation: the
table is the 64-slot array, `thread_count` is within bounds, slots at or
beyond `thread_count` are empty, and any `Running` TCB sits at
`current_index` (hence there is at most one). -/
def Inv (s : Scheduler) : Prop :=
  s.threads.length = MAX_THREADS ∧ s.thread_count ≤ MAX_THREADS ∧
  (∀ i, s.thread_count ≤ i → s.getSlot i = none) ∧
  (∀ i, i ≠ s.current_index → s.stateAt i ≠ some ThreadState.Running)

theorem inv_new : Inv Scheduler.new := by
  refine ⟨rfl, by decide, ?_, ?_⟩
  · intro i _
    show (List.replicate MAX_THREADS (none : Option ThreadControlBlock)).getD i none = none
    rw [List.getD_eq_getElem?_getD, List.getElem?_replicate]
    split
    · rfl
    · rfl
  · intro i _
    show ((List.replicate MAX_THREADS (none : Option ThreadControlBlock)).getD i
      none).map _ ≠ _
    rw [List.getD_eq_getElem?_getD, List.getElem?_replicate]
    split
    · simp
    · simp

theorem inv_setCurrentRetval {s : Scheduler} (v : Nat) (h : Inv s) :
    Inv (s.setCurrentRetval v) := by
  obtain ⟨h1, h2, h3, h4⟩ := h
  refine ⟨?_, ?_, ?_, ?_⟩
  · rw [setCurrentRetval_threads_length]
    exact h1
  · rw [setCurrentRetval_thread_count]
    exact h2
  · intro i hi
    rw [setCurrentRetval_thread_count] at hi
    have hmap := statefutex_setCurrentRetval s v i
    rw [h3 i hi] at hmap
    cases hx : (s.setCurrentRetval v).getSlot i with
    | none => rfl
    | some t =>
        rw [hx] at hmap
        exact absurd hmap (by simp)
  · intro i hi
    rw [setCurrentRetval_current_index] at hi
    rw [stateAt_setCurrentRetval]
    exact h4 i hi

/-- Modifying the TCB in the current slot — whatever the modification —
preserves the invariant. -/
theorem inv_modify_at {s : Scheduler} (i : Nat) (f : ThreadControlBlock → ThreadControlBlock)
    (hi : i = s.current_index) (h : Inv s) : Inv (s.modifyTCB i f) := by
  obtain ⟨h1, h2, h3, h4⟩ := h
  refine ⟨?_, ?_, ?_, ?_⟩
  · rw [modifyTCB_threads_length]
    exact h1
  · rw [modifyTCB_thread_count]
    exact h2
  · intro j hj
    rw [modifyTCB_thread_count] at hj
    rw [getSlot_modifyTCB]
    by_cases hji : j = i
    · rw [if_pos hji, h3 i (hji ▸ hj)]
      rfl
    · rw [if_neg hji]
      exact h3 j hj
  · intro j hj
    rw [modifyTCB_current_index] at hj
    rw [stateAt_modifyTCB, if_neg (fun hji => hj (hji.trans hi))]
    exact h4 j hj

/-- Promoting slot `n` to `Running` and making it current preserves the
invariant when no slot is `Running` beforehand. -/
theorem inv_switch {s : Scheduler} (n : Nat)
    (h1 : s.threads.length = MAX_THREADS) (h2 : s.thread_count ≤ MAX_THREADS)
    (h3 : ∀ i, s.thread_count ≤ i → s.getSlot i = none)
    (hnr : ∀ i, s.stateAt i ≠ some ThreadState.Running) :
    Inv { s.modifyTCB n (fun t => { t with state := ThreadState.Running }) with
      current_index := n } := by
  show Inv ((s.modifyTCB n (fun t => { t with state := ThreadState.Running })).setCurrentIndex n)
  refine ⟨?_, ?_, ?_, ?_⟩
  · rw [show ∀ x : Scheduler, ∀ m, (x.setCurrentIndex m).threads = x.threads from fun _ _ => rfl]
    rw [modifyTCB_threads_length]
    exact h1
  · rw [setCurrentIndex_thread_count, modifyTCB_thread_count]
    exact h2
  · intro i hi
    rw [setCurrentIndex_thread_count, modifyTCB_thread_count] at hi
    rw [setCurrentIndex_getSlot, getSlot_modifyTCB]
    by_cases hin : i = n
    · rw [if_pos hin, h3 n (hin ▸ hi)]
      rfl
    · rw [if_neg hin]
      exact h3 i hi
  · intro i hi
    have hin : i ≠ n := hi
    show ((s.modifyTCB n _).setCurrentIndex n).stateAt i ≠ some ThreadState.Running
    rw [show ∀ x : Scheduler, ∀ m q, (x.setCurrentIndex m).stateAt q = x.stateAt q from
      fun _ _ _ => rfl]
    rw [stateAt_modifyTCB, if_neg hin]
    exact hnr i

/-- Lemma: `wake_futex` preserves the invariant (it only turns `Blocked` TCBs
`Ready`). -/
theorem inv_wake_futex {s : Scheduler} (addr k : Nat) (h : Inv s) :
    Inv (s.wake_futex addr k).1 := by
  obtain ⟨h1, h2, h3, h4⟩ := h
  obtain ⟨a1, a2, a3, a4, a5, a6, a7, a8, a9⟩ := wake_futex_spec s addr k
  refine ⟨a5.trans h1, a2 ▸ h2, ?_, ?_⟩
  · intro i hi
    rw [a2] at hi
    rw [a6 i hi]
    exact h3 i hi
  · intro i hi
    rw [a3] at hi
    by_cases hch : (s.wake_futex addr k).1.getSlot i = s.getSlot i
    · show ((s.wake_futex addr k).1.getSlot i).map _ ≠ _
      rw [hch]
      exact h4 i hi
    · obtain ⟨t, hsome, hblocked, haddr, hnew⟩ := a7 i hch
      show ((s.wake_futex addr k).1.getSlot i).map _ ≠ _
      rw [hnew]
      simp

/-- No slot of `s` is `Running`. -/
def NoRun (s : Scheduler) : Prop := ∀ i, s.stateAt i ≠ some ThreadState.Running

theorem norun_wake_futex {s : Scheduler} (addr k : Nat) (h : NoRun s) :
    NoRun (s.wake_futex addr k).1 := by
  intro i
  obtain ⟨a1, a2, a3, a4, a5, a6, a7, a8, a9⟩ := wake_futex_spec s addr k
  by_cases hch : (s.wake_futex addr k).1.getSlot i = s.getSlot i
  · show ((s.wake_futex addr k).1.getSlot i).map _ ≠ _
    rw [hch]
    exact h i
  · obtain ⟨t, hsome, hblocked, haddr, hnew⟩ := a7 i hch
    show ((s.wake_futex addr k).1.getSlot i).map _ ≠ _
    rw [hnew]
    simp

theorem inv_yield {s : Scheduler} (h : Inv s) : Inv s.yield_now := by
  obtain ⟨h1, h2, h3, h4⟩ := h
  have hA : Inv (s.setCurrentRetval 0) := inv_setCurrentRetval 0 ⟨h1, h2, h3, h4⟩
  have hAcur : s.current_index = (s.setCurrentRetval 0).current_index :=
    (setCurrentRetval_current_index s 0).symm
  unfold Scheduler.yield_now
  dsimp only
  split
  next h0 => exact hA
  next h0 =>
    rw [setCurrentRetval_current_index]
    cases hslot : (s.setCurrentRetval 0).getSlot s.current_index with
    | none =>
        dsimp only
        cases hfind : (s.setCurrentRetval 0).find_next_ready
            ((s.current_index + 1) % (s.setCurrentRetval 0).thread_count) with
        | none =>
            rw [hslot]
            dsimp only
            exact hA
        | some n =>
            dsimp only
            by_cases hn : n = s.current_index
            · rw [if_pos hn, hslot]
              dsimp only
              exact hA
            · rw [if_neg hn]
              cases hslotn : (s.setCurrentRetval 0).getSlot n with
              | none =>
                  dsimp only
                  exact hA
              | some tn =>
                  dsimp only
                  obtain ⟨a1, a2, a3, a4⟩ := hA
                  refine inv_switch n a1 a2 a3 ?_
                  intro i
                  by_cases hic : i = s.current_index
                  · show ((s.setCurrentRetval 0).getSlot i).map _ ≠ _
                    rw [hic, hslot]
                    simp
                  · rw [stateAt_setCurrentRetval]
                    exact h4 i hic
    | some t =>
        dsimp only
        by_cases hst : t.state = ThreadState.Running
        · rw [if_pos hst]
          have hm : ((s.setCurrentRetval 0).modifyTCB s.current_index
              (fun t => { t with state := ThreadState.Ready })).getSlot s.current_index =
              some { t with state := ThreadState.Ready } := by
            rw [getSlot_modifyTCB, if_pos rfl, hslot]
            rfl
          have hmodInv : Inv ((s.setCurrentRetval 0).modifyTCB s.current_index
              (fun t => { t with state := ThreadState.Ready })) :=
            inv_modify_at s.current_index _ hAcur hA
          cases hfind : ((s.setCurrentRetval 0).modifyTCB s.current_index
              (fun t => { t with state := ThreadState.Ready })).find_next_ready
              ((s.current_index + 1) %
                ((s.setCurrentRetval 0).modifyTCB s.current_index
                  (fun t => { t with state := ThreadState.Ready })).thread_count) with
          | none =>
              dsimp only
              rw [hm]
              dsimp only
              rw [if_pos (show ({ t with state := ThreadState.Ready
                } : ThreadControlBlock).state = ThreadState.Ready from rfl)]
              refine inv_modify_at s.current_index _ ?_ hmodInv
              rw [modifyTCB_current_index, setCurrentRetval_current_index]
          | some n =>
              dsimp only
              by_cases hn : n = s.current_index
              · rw [if_pos hn]
                rw [hm]
                dsimp only
                refine inv_modify_at s.current_index _ ?_ hmodInv
                rw [modifyTCB_current_index, setCurrentRetval_current_index]
              · rw [if_neg hn]
                cases hslotn : ((s.setCurrentRetval 0).modifyTCB s.current_index
                    (fun t => { t with state := ThreadState.Ready })).getSlot n with
                | none =>
                    dsimp only
                    exact hmodInv
                | some tn =>
                    dsimp only
                    obtain ⟨a1, a2, a3, a4⟩ := hmodInv
                    refine inv_switch n a1 a2 a3 ?_
                    intro i
                    by_cases hic : i = s.current_index
                    · show (((s.setCurrentRetval 0).modifyTCB s.current_index
                        (fun t => { t with state := ThreadState.Ready })).getSlot i).map _ ≠ _
                      rw [hic, hm]
                      simp
                    · rw [stateAt_modifyTCB, if_neg hic, stateAt_setCurrentRetval]
                      exact h4 i hic
        · rw [if_neg hst]
          cases hfind : (s.setCurrentRetval 0).find_next_ready
              ((s.current_index + 1) % (s.setCurrentRetval 0).thread_count) with
          | none =>
              rw [hslot]
              dsimp only
              by_cases hr : t.state = ThreadState.Ready
              · rw [if_pos hr]
                exact inv_modify_at s.current_index _ hAcur hA
              · rw [if_neg hr]
                exact hA
          | some n =>
              dsimp only
              by_cases hn : n = s.current_index
              · rw [if_pos hn, hslot]
                dsimp only
                exact inv_modify_at s.current_index _ hAcur hA
              · rw [if_neg hn]
                cases hslotn : (s.setCurrentRetval 0).getSlot n with
                | none =>
                    dsimp only
                    exact hA
                | some tn =>
                    dsimp only
                    obtain ⟨a1, a2, a3, a4⟩ := hA
                    refine inv_switch n a1 a2 a3 ?_
                    intro i
                    by_cases hic : i = s.current_index
                    · show ((s.setCurrentRetval 0).getSlot i).map _ ≠ _
                      rw [hic, hslot]
                      simp [hst]
                    · rw [stateAt_setCurrentRetval]
                      exact h4 i hic

theorem inv_wait {s : Scheduler} (addr : Nat) (expected actual : Int) (h : Inv s) :
    Inv (s.wait_on_addr addr expected actual).1 := by
  unfold Scheduler.wait_on_addr
  by_cases hne : actual ≠ expected
  · rw [if_pos hne]
    exact inv_setCurrentRetval _ h
  · rw [if_neg hne]
    by_cases h1c : s.thread_count ≤ 1
    · rw [if_pos h1c]
      exact inv_setCurrentRetval _ h
    · rw [if_neg h1c]
      dsimp only
      cases hct : (s.setCurrentRetval 0).current_thread with
      | none =>
          dsimp only
          exact inv_setCurrentRetval 0 h
      | some t =>
          dsimp only
          exact inv_yield (inv_modify_at _ _ rfl (inv_setCurrentRetval 0 h))

theorem inv_wake_on {s : Scheduler} (addr k : Nat) (h : Inv s) :
    Inv (s.wake_on_addr addr k).1 := by
  unfold Scheduler.wake_on_addr
  dsimp only
  exact inv_setCurrentRetval _ (inv_wake_futex addr k h)

theorem inv_exit {s : Scheduler} (code : Int) (h : Inv s) :
    Inv (s.exit_current_and_yield code).sched := by
  obtain ⟨h1, h2, h3, h4⟩ := h
  unfold Scheduler.exit_current_and_yield
  cases hct : s.current_thread with
  | none => exact ⟨h1, h2, h3, h4⟩
  | some cur =>
      dsimp only
      have hInvA : Inv (s.modifyTCB s.current_index
          (fun t => { t with state := ThreadState.Exited })) :=
        inv_modify_at _ _ rfl ⟨h1, h2, h3, h4⟩
      have hnrA : NoRun (s.modifyTCB s.current_index
          (fun t => { t with state := ThreadState.Exited })) := by
        intro i
        rw [stateAt_modifyTCB]
        by_cases hic : i = s.current_index
        · rw [if_pos hic]
          cases s.getSlot s.current_index with
          | none => simp
          | some u => simp
        · rw [if_neg hic]
          exact h4 i hic
      by_cases hclear : cur.clear_child_tid ≠ 0
      · rw [if_pos hclear]
        dsimp only
        have hInvB : Inv ((s.modifyTCB s.current_index
            (fun t => { t with state := ThreadState.Exited })).wake_futex
              cur.clear_child_tid (USIZE_MOD - 1)).1 :=
          inv_wake_futex _ _ hInvA
        have hnrB : NoRun ((s.modifyTCB s.current_index
            (fun t => { t with state := ThreadState.Exited })).wake_futex
              cur.clear_child_tid (USIZE_MOD - 1)).1 :=
          norun_wake_futex _ _ hnrA
        by_cases hmain : cur.tid = 1
        · rw [if_pos hmain]
          exact hInvB
        · rw [if_neg hmain]
          cases hfind : ((s.modifyTCB s.current_index
              (fun t => { t with state := ThreadState.Exited })).wake_futex
                cur.clear_child_tid (USIZE_MOD - 1)).1.find_next_ready
              ((((s.modifyTCB s.current_index
                (fun t => { t with state := ThreadState.Exited })).wake_futex
                  cur.clear_child_tid (USIZE_MOD - 1)).1.current_index + 1) %
                ((s.modifyTCB s.current_index
                  (fun t => { t with state := ThreadState.Exited })).wake_futex
                    cur.clear_child_tid (USIZE_MOD - 1)).1.thread_count) with
          | none => exact hInvB
          | some n =>
              dsimp only
              cases hslotn : ((s.modifyTCB s.current_index
                  (fun t => { t with state := ThreadState.Exited })).wake_futex
                    cur.clear_child_tid (USIZE_MOD - 1)).1.getSlot n with
              | none => exact hInvB
              | some tn =>
                  dsimp only
                  obtain ⟨a1, a2, a3, a4⟩ := hInvB
                  exact inv_switch n a1 a2 a3 hnrB
      · rw [if_neg hclear]
        dsimp only
        by_cases hmain : cur.tid = 1
        · rw [if_pos hmain]
          exact hInvA
        · rw [if_neg hmain]
          cases hfind : (s.modifyTCB s.current_index
              (fun t => { t with state := ThreadState.Exited })).find_next_ready
              (((s.modifyTCB s.current_index
                (fun t => { t with state := ThreadState.Exited })).current_index + 1) %
                (s.modifyTCB s.current_index
                  (fun t => { t with state := ThreadState.Exited })).thread_count) with
          | none => exact hInvA
          | some n =>
              dsimp only
              cases hslotn : (s.modifyTCB s.current_index
                  (fun t => { t with state := ThreadState.Exited })).getSlot n with
              | none => exact hInvA
              | some tn =>
                  dsimp only
                  obtain ⟨a1, a2, a3, a4⟩ := hInvA
                  exact inv_switch n a1 a2 a3 hnrA

theorem inv_spawn {s : Scheduler} (pc : TrapFrame) (stack tls ccp mepc : Nat) (h : Inv s) :
    Inv (s.spawn_thread pc stack tls ccp mepc).1 := by
  obtain ⟨h1, h2, h3, h4⟩ := h
  by_cases h0 : s.thread_count = 0
  · rw [spawn_thread_succ_zero s pc stack tls ccp mepc h0]
    dsimp only
    refine inv_setCurrentRetval 2 ⟨?_, ?_, ?_, ?_⟩
    · show ((s.threads.set 0 (some (mainThreadTCB pc mepc))).set 1
        (some (spawnChild pc stack tls ccp mepc 2))).length = MAX_THREADS
      rw [List.length_set, List.length_set]
      exact h1
    · show (2 : Nat) ≤ MAX_THREADS
      decide
    · intro i hi
      have hi2 : 2 ≤ i := hi
      show ((s.threads.set 0 (some (mainThreadTCB pc mepc))).set 1
        (some (spawnChild pc stack tls ccp mepc 2))).getD i none = none
      rw [getD_set_of_ne _ _ (by omega), getD_set_of_ne _ _ (by omega)]
      exact h3 i (by omega)
    · intro i hi
      have hi0 : i ≠ 0 := hi
      show (((s.threads.set 0 (some (mainThreadTCB pc mepc))).set 1
        (some (spawnChild pc stack tls ccp mepc 2))).getD i none).map
          (fun t => t.state) ≠ some ThreadState.Running
      by_cases hi1 : i = 1
      · subst hi1
        rw [getD_set_self _ _ (by rw [List.length_set, h1]; decide)]
        simp [spawnChild]
      · rw [getD_set_of_ne _ _ hi1, getD_set_of_ne _ _ hi0]
        have h3x : s.threads.getD i none = none := h3 i (by omega)
        rw [h3x]
        simp
  · by_cases hcnt : s.thread_count < MAX_THREADS
    · rw [spawn_thread_succ_pos s pc stack tls ccp mepc h0 hcnt]
      dsimp only
      refine inv_setCurrentRetval _ ⟨?_, ?_, ?_, ?_⟩
      · show (s.threads.set s.thread_count
          (some (spawnChild pc stack tls ccp mepc s.next_tid))).length = MAX_THREADS
        rw [List.length_set]
        exact h1
      · show s.thread_count + 1 ≤ MAX_THREADS
        have := hcnt
        simp [MAX_THREADS] at this ⊢
        omega
      · intro i hi
        have hi2 : s.thread_count + 1 ≤ i := hi
        show (s.threads.set s.thread_count
          (some (spawnChild pc stack tls ccp mepc s.next_tid))).getD i none = none
        rw [getD_set_of_ne _ _ (by omega)]
        exact h3 i (by omega)
      · intro i hi
        have hic : i ≠ s.current_index := hi
        show ((s.threads.set s.thread_count
          (some (spawnChild pc stack tls ccp mepc s.next_tid))).getD i none).map
            (fun t => t.state) ≠ some ThreadState.Running
        by_cases hik : i = s.thread_count
        · subst hik
          rw [getD_set_self _ _ (by rw [h1]; simpa [MAX_THREADS] using hcnt)]
          simp [spawnChild]
        · rw [getD_set_of_ne _ _ hik]
          exact h4 i hic
    · have hge : 64 ≤ s.thread_count := by simpa [MAX_THREADS] using not_lt.mp hcnt
      rw [spawn_thread_full s pc stack tls ccp mepc hge h0]
      exact ⟨h1, h2, h3, h4⟩

/-- Every reachable scheduler state satisfies the invariant. -/
theorem reachable_inv {s : Scheduler} (h : Reachable s) : Inv s := by
  induction h with
  | refl => exact inv_new
  | tail hr hstep ih =>
      cases hstep with
      | spawn f stack tls ccp mepc => exact inv_spawn f stack tls ccp mepc ih
      | yield => exact inv_yield ih
      | wait addr expected actual => exact inv_wait addr expected actual ih
      | wake addr count => exact inv_wake_on addr count ih
      | exit code => exact inv_exit code ih

/-- The deadlocked state: spawn a child, yield to it, let it exit, then
have main futex-wait (the stored value matching `expected`).  Main ends
`Blocked`, the child `Exited`: no thread is `Running`. -/
def deadlockedSched : Scheduler :=
  ((((Scheduler.new.spawn_thread TrapFrame.new 0 0 0 0).1.yield_now).exit_current_and_yield
      0).sched.wait_on_addr 500 0 0).1

/-- The main TCB as it sits in `deadlockedSched`. -/
def blockedMainTCB : ThreadControlBlock :=
  { trap_frame := TrapFrame.new
    thread_ctx := ThreadContext.new
    tid := 1
    state := ThreadState.Blocked
    saved_pc := 0
    futex_wait_addr := 500
    clear_child_tid := 0 }

/-- Claim **C1, counterexample**: `deadlockedSched` is reachable by
spawn/yield/exit/wait calls, holds a non-`Exited` (namely `Blocked`)
thread, yet has no `Running` TCB at all — so "exactly one `Running`
whenever some thread is non-`Exited`" fails on reachable states. -/
theorem C1_counterexample :
    Reachable deadlockedSched ∧
    (∃ i t, deadlockedSched.getSlot i = some t ∧ t.state ≠ ThreadState.Exited) ∧
    deadlockedSched.runningCount ≠ 1 := by
  refine ⟨?_, ⟨0, blockedMainTCB, by decide, by decide⟩, by decide⟩
  exact Relation.ReflTransGen.tail
    (Relation.ReflTransGen.tail
      (Relation.ReflTransGen.tail
        (Relation.ReflTransGen.single (Step.spawn Scheduler.new TrapFrame.new 0 0 0 0))
        (Step.yield (Scheduler.new.spawn_thread TrapFrame.new 0 0 0 0).1))
      (Step.exit ((Scheduler.new.spawn_thread TrapFrame.new 0 0 0 0).1.yield_now) 0))
    (Step.wait (((Scheduler.new.spawn_thread TrapFrame.new 0 0 0
      0).1.yield_now).exit_current_and_yield 0).sched 500 0 0)

/-- Claim **C1, amended** (single-runner invariant): in every reachable
scheduler state at most one TCB has `state = Running`, and a `Running`
TCB can only sit in the current slot.  (The claimed "exactly one
whenever some thread is non-Exited" is refuted by `C1_counterexample`:
all non-exited threads may be `Blocked` — a futex deadlock — or the
main thread may have exited, leaving no runner.) -/
theorem C1_single_runner (s : Scheduler) (h : Reachable s) :
    (∀ i, i ≠ s.current_index → s.stateAt i ≠ some ThreadState.Running) ∧
    s.runningCount ≤ 1 := by
  obtain ⟨-, -, -, h4⟩ := reachable_inv h
  refine ⟨h4, ?_⟩
  unfold Scheduler.runningCount
  have hmono : (List.range MAX_THREADS).countP
      (fun i => decide (s.stateAt i = some ThreadState.Running)) ≤
      (List.range MAX_THREADS).countP (· == s.current_index) := by
    refine List.countP_mono_left ?_
    intro a _ ha
    have hrun : s.stateAt a = some ThreadState.Running := of_decide_eq_true ha
    have : a = s.current_index := by
      by_contra hne
      exact h4 a hne hrun
    simpa using this
  refine le_trans hmono ?_
  have : (List.range MAX_THREADS).countP (· == s.current_index) =
      (List.range MAX_THREADS).count s.current_index := rfl
  rw [this]
  exact List.nodup_iff_count_le_one.mp (List.nodup_range MAX_THREADS) s.current_index

/-- Witness for the amended C1 at a concrete reachable state (one spawn
from fresh). -/
theorem C1_single_runner_witness :
    (∀ i, i ≠ twoThreadSched.current_index →
      twoThreadSched.stateAt i ≠ some ThreadState.Running) ∧
    twoThreadSched.runningCount ≤ 1 :=
  C1_single_runner twoThreadSched
    (Relation.ReflTransGen.single (Step.spawn Scheduler.new TrapFrame.new 0 0 0 0))

end ClaimC1

end ZeroOS
